import Mathlib

/-!
Verification development for the multi-agent command pipeline.

Strings are modelled as `List Char` (JavaScript strings; the `.length` of a
JS string counts UTF-16 units, which coincides with the number of characters
for all inputs considered here).  Each definition is a shallow embedding of a
function of the repository; the originating file and the mirrored regular
expressions are quoted in the doc comments.  The external collaborators
(OpenAI chat completions, the inter-handler HTTP call, node's `crypto`
hash and the real file system) are modelled as oracle parameters of an
environment record, as they are outside the repository.
-/

namespace VisionAgent

/-- ASCII lower-casing of one character, modelling JavaScript `toLowerCase()`
and the `i` regex flag (all pattern literals are ASCII). -/
def lowerChar (c : Char) : Char :=
  if 'A' ≤ c ∧ c ≤ 'Z' then Char.ofNat (c.toNat + 32) else c

/-- JavaScript whitespace as recognised by `\s` and `String.prototype.trim`
(the common characters; exotic Unicode spaces behave identically). -/
def isJsWs (c : Char) : Bool :=
  c == ' ' || c == '\t' || c == '\n' || c == '\r' || c == '\x0b' || c == '\x0c' || c == '\u00A0'

/-- Lower-case a whole string. -/
def lowerList (l : List Char) : List Char := l.map lowerChar

/-- JavaScript `String.prototype.trim()`. -/
def jsTrim (l : List Char) : List Char :=
  ((l.dropWhile isJsWs).reverse.dropWhile isJsWs).reverse

/-- Characters matched by `.` in a JavaScript regex without the `s` flag. -/
def isDotChar (c : Char) : Bool :=
  !(c == '\n' || c == '\r' || c == '\u2028' || c == '\u2029')

/-- Character class `[a-zA-Z0-9._-]` of the filename-shaped tokens. -/
def isFileClass (c : Char) : Bool :=
  c.isAlpha || c.isDigit || c == '.' || c == '_' || c == '-'

/-- Character class `[a-zA-Z0-9]`. -/
def isAlnum (c : Char) : Bool := c.isAlpha || c.isDigit

/-- Character class `[^:]`. -/
def isNonColon (c : Char) : Bool := c != ':'

/-- Character class `[a-z0-9_]` under the `i` flag (keys of the key/value
extractor). -/
def isKeyClass (c : Char) : Bool := c.isAlpha || c.isDigit || c == '_'

/-- Character class `\w` (used by `\b` word boundaries). -/
def isWordChar (c : Char) : Bool := c.isAlpha || c.isDigit || c == '_'

/-- Character class `[^,;\s]` of bare key/value values. -/
def isBareVal (c : Char) : Bool := !(c == ',' || c == ';' || isJsWs c)

/-- Match a literal regex token case-insensitively at the head of the input
(the `i` flag); returns the rest of the input after the token. -/
def matchLit : List Char → List Char → Option (List Char)
  | [], l => some l
  | _ :: _, [] => none
  | c :: cs, d :: ds => if lowerChar d = lowerChar c then matchLit cs ds else none

/-- Match `\s+` at the head of the input, consuming the maximal run.  Every
occurrence of `\s+` in the mirrored patterns is followed by a token that
cannot begin with whitespace, or by a class containing whitespace whose
splits are explored exhaustively by `classPlus`, so the maximal run is
exact (a shorter run would leave a whitespace character that the following
token cannot match, and the class case reaches the same end positions). -/
def ws1 (l : List Char) : Option (List Char) :=
  match l with
  | [] => none
  | c :: r => if isJsWs c then some (r.dropWhile isJsWs) else none

/-- Ordered alternation with backtracking into the continuation `k`:
branch `b` is tried first; if `b` consumes but `k` then fails, the later
branches are tried, exactly like a regex engine retrying an alternation or
an optional group.  An optional group `(?:X)?` is the branch list
`[X, skipB]`. -/
def tryOpts {α : Type} (bs : List (List Char → Option (List Char))) (k : List Char → Option α) (l : List Char) : Option α :=
  match bs with
  | [] => none
  | b :: bs' =>
    (match b l with
     | some r => k r
     | none => none) <|> tryOpts bs' k l

/-- Branch that consumes nothing (the skipped side of an optional group). -/
def skipB (l : List Char) : Option (List Char) := some l

/-- Helper for `classPlus`: try capture lengths `n, n-1, …, 1`. -/
def splitTries {α : Type} (k : List Char → List Char → Option α) (l : List Char) : Nat → Option α
  | 0 => none
  | n + 1 => k (l.take (n + 1)) (l.drop (n + 1)) <|> splitTries k l n

/-- Greedy one-or-more character class `([cls]+)` with full backtracking:
the longest run is tried first and shortened while the continuation `k`
(receiving the capture and the rest) fails — exactly the greedy matching
of a JavaScript regex engine. -/
def classPlus {α : Type} (cls : Char → Bool) (k : List Char → List Char → Option α) (l : List Char) : Option α :=
  splitTries k l (l.takeWhile cls).length

/-- Tail matcher `(.*)$`: succeeds iff no line terminator remains, capturing
the whole rest (`.` does not match line terminators and `$` without the `m`
flag only matches at the very end). -/
def dotStar (l : List Char) : Option (List Char) :=
  if l.all isDotChar then some l else none

/-- Tail matcher `(.+)$`. -/
def dotPlus (l : List Char) : Option (List Char) :=
  if l ≠ [] ∧ l.all isDotChar then some l else none

/-- Ordered alternation over literal tokens, passing the token to the
continuation as the capture.  The repository lower-cases every capture
taken from such an alternation, and the case-insensitively matched slice
lower-cases to the token itself, so passing the token is exact.  All token
lists used are pairwise non-prefix, hence at most one branch can consume. -/
def litAlt {α : Type} (ts : List (List Char)) (k : List Char → List Char → Option α) (l : List Char) : Option α :=
  match ts with
  | [] => none
  | t :: ts' =>
    (match matchLit t l with
     | some r => k t r
     | none => none) <|> litAlt ts' k l

/-- Literal token "please" of the pattern rules. -/
def tokPlease : List Char := ['p', 'l', 'e', 'a', 's', 'e']

/-- Literal token "can" of the pattern rules. -/
def tokCan : List Char := ['c', 'a', 'n']

/-- Literal token "you" of the pattern rules. -/
def tokYou : List Char := ['y', 'o', 'u']

/-- Literal token "create" of the pattern rules. -/
def tokCreate : List Char := ['c', 'r', 'e', 'a', 't', 'e']

/-- Literal token "make" of the pattern rules. -/
def tokMake : List Char := ['m', 'a', 'k', 'e']

/-- Literal token "write" of the pattern rules. -/
def tokWrite : List Char := ['w', 'r', 'i', 't', 'e']

/-- Literal token "a" of the pattern rules. -/
def tokA : List Char := ['a']

/-- Literal token "an" of the pattern rules. -/
def tokAn : List Char := ['a', 'n']

/-- Literal token "file" of the pattern rules. -/
def tokFile : List Char := ['f', 'i', 'l', 'e']

/-- Literal token "document" of the pattern rules. -/
def tokDocument : List Char := ['d', 'o', 'c', 'u', 'm', 'e', 'n', 't']

/-- Literal token "script" of the pattern rules. -/
def tokScript : List Char := ['s', 'c', 'r', 'i', 'p', 't']

/-- Literal token "json" of the pattern rules. -/
def tokJson : List Char := ['j', 's', 'o', 'n']

/-- Literal token "html" of the pattern rules. -/
def tokHtml : List Char := ['h', 't', 'm', 'l']

/-- Literal token "css" of the pattern rules. -/
def tokCss : List Char := ['c', 's', 's']

/-- Literal token "python" of the pattern rules. -/
def tokPython : List Char := ['p', 'y', 't', 'h', 'o', 'n']

/-- Literal token "typescript" of the pattern rules. -/
def tokTypescript : List Char := ['t', 'y', 'p', 'e', 's', 'c', 'r', 'i', 'p', 't']

/-- Literal token "javascript" of the pattern rules. -/
def tokJavascript : List Char := ['j', 'a', 'v', 'a', 's', 'c', 'r', 'i', 'p', 't']

/-- Literal token "called" of the pattern rules. -/
def tokCalled : List Char := ['c', 'a', 'l', 'l', 'e', 'd']

/-- Literal token "named" of the pattern rules. -/
def tokNamed : List Char := ['n', 'a', 'm', 'e', 'd']

/-- Literal token "with" of the pattern rules. -/
def tokWith : List Char := ['w', 'i', 't', 'h']

/-- Literal token "content" of the pattern rules. -/
def tokContent : List Char := ['c', 'o', 'n', 't', 'e', 'n', 't']

/-- Literal token "list" of the pattern rules. -/
def tokList : List Char := ['l', 'i', 's', 't']

/-- Literal token "show" of the pattern rules. -/
def tokShow : List Char := ['s', 'h', 'o', 'w']

/-- Literal token "get" of the pattern rules. -/
def tokGet : List Char := ['g', 'e', 't']

/-- Literal token "all" of the pattern rules. -/
def tokAll : List Char := ['a', 'l', 'l']

/-- Literal token "my" of the pattern rules. -/
def tokMy : List Char := ['m', 'y']

/-- Literal token "files" of the pattern rules. -/
def tokFiles : List Char := ['f', 'i', 'l', 'e', 's']

/-- Literal token "documents" of the pattern rules. -/
def tokDocuments : List Char := ['d', 'o', 'c', 'u', 'm', 'e', 'n', 't', 's']

/-- Literal token "scripts" of the pattern rules. -/
def tokScripts : List Char := ['s', 'c', 'r', 'i', 'p', 't', 's']

/-- Literal token "agents" of the pattern rules. -/
def tokAgents : List Char := ['a', 'g', 'e', 'n', 't', 's']

/-- Literal token "commands" of the pattern rules. -/
def tokCommands : List Char := ['c', 'o', 'm', 'm', 'a', 'n', 'd', 's']

/-- Literal token "memory" of the pattern rules. -/
def tokMemory : List Char := ['m', 'e', 'm', 'o', 'r', 'y']

/-- Literal token "in" of the pattern rules. -/
def tokIn : List Char := ['i', 'n']

/-- Literal token "analyze" of the pattern rules. -/
def tokAnalyze : List Char := ['a', 'n', 'a', 'l', 'y', 'z', 'e']

/-- Literal token "examine" of the pattern rules. -/
def tokExamine : List Char := ['e', 'x', 'a', 'm', 'i', 'n', 'e']

/-- Literal token "parse" of the pattern rules. -/
def tokParse : List Char := ['p', 'a', 'r', 's', 'e']

/-- Literal token "process" of the pattern rules. -/
def tokProcess : List Char := ['p', 'r', 'o', 'c', 'e', 's', 's']

/-- Literal token "this" of the pattern rules. -/
def tokThis : List Char := ['t', 'h', 'i', 's']

/-- Literal token "the" of the pattern rules. -/
def tokThe : List Char := ['t', 'h', 'e']

/-- Literal token "text" of the pattern rules. -/
def tokText : List Char := ['t', 'e', 'x', 't']

/-- Literal token "code" of the pattern rules. -/
def tokCode : List Char := ['c', 'o', 'd', 'e']

/-- Literal token "data" of the pattern rules. -/
def tokData : List Char := ['d', 'a', 't', 'a']

/-- Literal token "search" of the pattern rules. -/
def tokSearch : List Char := ['s', 'e', 'a', 'r', 'c', 'h']

/-- Literal token "find" of the pattern rules. -/
def tokFind : List Char := ['f', 'i', 'n', 'd']

/-- Literal token "look" of the pattern rules. -/
def tokLook : List Char := ['l', 'o', 'o', 'k']

/-- Literal token "for" of the pattern rules. -/
def tokFor : List Char := ['f', 'o', 'r']

/-- Literal token "information" of the pattern rules. -/
def tokInformation : List Char := ['i', 'n', 'f', 'o', 'r', 'm', 'a', 't', 'i', 'o', 'n']

/-- Literal token "about" of the pattern rules. -/
def tokAbout : List Char := ['a', 'b', 'o', 'u', 't']

/-- Literal token "on" of the pattern rules. -/
def tokOn : List Char := ['o', 'n']

/-- Literal token "related" of the pattern rules. -/
def tokRelated : List Char := ['r', 'e', 'l', 'a', 't', 'e', 'd']

/-- Literal token "to" of the pattern rules. -/
def tokTo : List Char := ['t', 'o']

/-- Literal token "schedule" of the pattern rules. -/
def tokSchedule : List Char := ['s', 'c', 'h', 'e', 'd', 'u', 'l', 'e']

/-- Literal token "book" of the pattern rules. -/
def tokBook : List Char := ['b', 'o', 'o', 'k']

/-- Literal token "plan" of the pattern rules. -/
def tokPlan : List Char := ['p', 'l', 'a', 'n']

/-- Literal token "set" of the pattern rules. -/
def tokSet : List Char := ['s', 'e', 't']

/-- Literal token "up" of the pattern rules. -/
def tokUp : List Char := ['u', 'p']

/-- Literal token "meeting" of the pattern rules. -/
def tokMeeting : List Char := ['m', 'e', 'e', 't', 'i', 'n', 'g']

/-- Literal token "event" of the pattern rules. -/
def tokEvent : List Char := ['e', 'v', 'e', 'n', 't']

/-- Literal token "task" of the pattern rules. -/
def tokTask : List Char := ['t', 'a', 's', 'k']

/-- Literal token "reminder" of the pattern rules. -/
def tokReminder : List Char := ['r', 'e', 'm', 'i', 'n', 'd', 'e', 'r']

/-- Literal token "appointment" of the pattern rules. -/
def tokAppointment : List Char := ['a', 'p', 'p', 'o', 'i', 'n', 't', 'm', 'e', 'n', 't']

/-- Literal token "titled" of the pattern rules. -/
def tokTitled : List Char := ['t', 'i', 't', 'l', 'e', 'd']

/-- Literal token "at" of the pattern rules. -/
def tokAt : List Char := ['a', 't']

/-- Literal token "read" of the pattern rules. -/
def tokRead : List Char := ['r', 'e', 'a', 'd']

/-- Literal token "open" of the pattern rules. -/
def tokOpen : List Char := ['o', 'p', 'e', 'n']

/-- Literal token "display" of the pattern rules. -/
def tokDisplay : List Char := ['d', 'i', 's', 'p', 'l', 'a', 'y']

/-- Literal token "view" of the pattern rules. -/
def tokView : List Char := ['v', 'i', 'e', 'w']

/-- Literal token "contents" of the pattern rules. -/
def tokContents : List Char := ['c', 'o', 'n', 't', 'e', 'n', 't', 's']

/-- Literal token "of" of the pattern rules. -/
def tokOf : List Char := ['o', 'f']

/-- Literal token "delete" of the pattern rules. -/
def tokDelete : List Char := ['d', 'e', 'l', 'e', 't', 'e']

/-- Literal token "remove" of the pattern rules. -/
def tokRemove : List Char := ['r', 'e', 'm', 'o', 'v', 'e']

/-- Literal token "trash" of the pattern rules. -/
def tokTrash : List Char := ['t', 'r', 'a', 's', 'h']

/-- Literal token "help" of the pattern rules. -/
def tokHelp : List Char := ['h', 'e', 'l', 'p']

/-- Parameter key "type". -/
def kType : List Char := ['t', 'y', 'p', 'e']

/-- Parameter key "name". -/
def kName : List Char := ['n', 'a', 'm', 'e']

/-- Parameter key "content". -/
def kContent : List Char := ['c', 'o', 'n', 't', 'e', 'n', 't']

/-- Parameter key "location". -/
def kLocation : List Char := ['l', 'o', 'c', 'a', 't', 'i', 'o', 'n']

/-- Parameter key "query". -/
def kQuery : List Char := ['q', 'u', 'e', 'r', 'y']

/-- Parameter key "source". -/
def kSource : List Char := ['s', 'o', 'u', 'r', 'c', 'e']

/-- Parameter key "description". -/
def kDescription : List Char := ['d', 'e', 's', 'c', 'r', 'i', 'p', 't', 'i', 'o', 'n']

/-- Parameter key "time". -/
def kTime : List Char := ['t', 'i', 'm', 'e']

/-- Parameter key "filename". -/
def kFilename : List Char := ['f', 'i', 'l', 'e', 'n', 'a', 'm', 'e']

/-- Parameter key "file". -/
def kFile : List Char := ['f', 'i', 'l', 'e']

/-- Parameter key "command". -/
def kCommand : List Char := ['c', 'o', 'm', 'm', 'a', 'n', 'd']

/-- Structured command produced by the Pattern Extractor
(`ParsedCommand` of `src/utils/commandParser.ts`); `params` is the
JavaScript object, an insertion-ordered association list. -/
structure ParsedCommand where
  command : List Char
  params : List (List Char × List Char)
deriving DecidableEq

/-- JavaScript object property assignment `o[k] = v`: replace in place if the
key exists, otherwise append (insertion order preserved). -/
def setParam (ps : List (List Char × List Char)) (k v : List Char) : List (List Char × List Char) :=
  match ps with
  | [] => [(k, v)]
  | (k', v') :: rest => if k' = k then (k, v) :: rest else (k', v') :: setParam rest k v

/-- JavaScript `delete o[k]`. -/
def delParam (ps : List (List Char × List Char)) (k : List Char) : List (List Char × List Char) :=
  ps.filter (fun p => p.1 ≠ k)

/-- Truthiness of a string-valued property (`undefined` and `''` are falsy). -/
def paramTruthy (ps : List (List Char × List Char)) (k : List Char) : Bool :=
  match ps.lookup k with
  | some v => v ≠ []
  | none => false

/-- Branch `please\s+` of the leading optional group `(?:please\s+)?`. -/
def pleaseB (l : List Char) : Option (List Char) :=
  (matchLit tokPlease l).bind ws1

/-- Branch `\s+tok` (e.g. the body of `(?:\s+(?:a|an))?`). -/
def wsThen (t : List Char) (l : List Char) : Option (List Char) :=
  (ws1 l).bind (matchLit t)

/-- Colon group `(?:\s*:|:?\s+)` with continuation backtracking: the ordered
alternatives are `\s*:` (whitespace cannot expose a colon by shrinking, so
`dropWhile` is exact), then `:\s+`, then `\s+`. -/
def colonGroup {α : Type} (k : List Char → Option α) (l : List Char) : Option α :=
  (match l.dropWhile isJsWs with
   | ':' :: r => k r
   | _ => none)
  <|> (match l with
       | ':' :: r => (ws1 r).bind k
       | _ => none)
  <|> (ws1 l).bind k

/-- Tail of the create rule after the captured name:
`(?:\s+with\s+content(?:\s*:|:?\s+)(.*)|(.*))?$`, returning the content
value `match[3] || match[4] || ''` (skipping the optional group requires the
end of input, which the second alternative also accepts, with the same
empty content). -/
def createAfterName (l : List Char) : Option (List Char) :=
  ((ws1 l).bind fun r =>
    (matchLit tokWith r).bind fun r =>
      (ws1 r).bind fun r =>
        (matchLit tokContent r).bind fun r =>
          colonGroup dotStar r)
  <|> dotStar l

/-- Rule `create` of `commandPatterns` together with its `switch` case:
`/^(?:please\s+)?(?:create|make|write)(?:\s+(?:a|an))?\s+(file|document|script|json|html|css|python|typescript|javascript)(?:\s+(?:called|named))?\s+([a-zA-Z0-9._-]+)(?:\s+with\s+content(?:\s*:|:?\s+)(.*)|(.*))?$/i`,
params `type` (capture 1 lower-cased), `name` (capture 2),
`content` (capture 3 or 4 or empty). -/
def ruleCreate (l : List Char) : Option ParsedCommand :=
  tryOpts [pleaseB, skipB] (fun r =>
    litAlt [tokCreate, tokMake, tokWrite] (fun _ r =>
      tryOpts [wsThen tokA, wsThen tokAn, skipB] (fun r =>
        (ws1 r).bind fun r =>
          litAlt [tokFile, tokDocument, tokScript, tokJson, tokHtml, tokCss, tokPython, tokTypescript, tokJavascript] (fun ty r =>
            tryOpts [wsThen tokCalled, wsThen tokNamed, skipB] (fun r =>
              (ws1 r).bind fun r =>
                classPlus isFileClass (fun nm rest =>
                  (createAfterName rest).map fun content =>
                    ⟨tokCreate, [(kType, ty), (kName, nm), (kContent, content)]⟩) r) r) r) r) r) l

/-- Optional trailing location `(?:\s+in\s+(.+))?$` of the list rule,
returning `match[2] || ''`. -/
def listTail (l : List Char) : Option (List Char) :=
  ((ws1 l).bind fun r =>
    (matchLit tokIn r).bind fun r =>
      (ws1 r).bind dotPlus)
  <|> (if l = [] then some [] else none)

/-- Rule `list`:
`/^(?:please\s+)?(?:list|show|get)(?:\s+(?:all|my))?\s+(files|documents|scripts|agents|commands|memory)(?:\s+in\s+(.+))?$/i`,
params `type` (capture 1 lower-cased), `location` (capture 2 or empty). -/
def ruleList (l : List Char) : Option ParsedCommand :=
  tryOpts [pleaseB, skipB] (fun r =>
    litAlt [tokList, tokShow, tokGet] (fun _ r =>
      tryOpts [wsThen tokAll, wsThen tokMy, skipB] (fun r =>
        (ws1 r).bind fun r =>
          litAlt [tokFiles, tokDocuments, tokScripts, tokAgents, tokCommands, tokMemory] (fun ty r =>
            (listTail r).map fun loc =>
              ⟨tokList, [(kType, ty), (kLocation, loc)]⟩) r) r) r) l

/-- Full-string test `/^[a-zA-Z0-9._-]+\.[a-zA-Z0-9]+$/i` used to decide
whether the analyze capture looks like a filename. -/
def isFilenameShaped (s : List Char) : Bool :=
  (classPlus isFileClass (fun _ rest =>
    match rest with
    | '.' :: r2 =>
      classPlus isAlnum (fun _ rest2 => if rest2 = [] then some () else none) r2
    | _ => none) s).isSome

/-- Optional content capture `(?:\s+(.+))?$` of the analyze rule. -/
def analyzeTail (l : List Char) : Option (Option (List Char)) :=
  (((ws1 l).bind dotPlus).map some)
  <|> (if l = [] then some none else none)

/-- Rule `analyze` together with its `switch` case:
`/^(?:please\s+)?(?:analyze|examine|parse|process)(?:\s+(?:this|the|my))?\s+(json|text|code|data|file)(?:\s*:|:?\s+)(?:\s+(.+))?$/i`;
if capture 2 trims to a filename-shaped token it becomes the `file` param,
otherwise it is the `content` param (untrimmed). -/
def ruleAnalyze (l : List Char) : Option ParsedCommand :=
  tryOpts [pleaseB, skipB] (fun r =>
    litAlt [tokAnalyze, tokExamine, tokParse, tokProcess] (fun _ r =>
      tryOpts [wsThen tokThis, wsThen tokThe, wsThen tokMy, skipB] (fun r =>
        (ws1 r).bind fun r =>
          litAlt [tokJson, tokText, tokCode, tokData, tokFile] (fun ty r =>
            colonGroup (fun r =>
              (analyzeTail r).map fun g2 =>
                match g2 with
                | some g =>
                  if isFilenameShaped (jsTrim g) then
                    ⟨tokAnalyze, [(kType, ty), (kContent, []), (kFile, jsTrim g)]⟩
                  else
                    ⟨tokAnalyze, [(kType, ty), (kContent, g), (kFile, [])]⟩
                | none => ⟨tokAnalyze, [(kType, ty), (kContent, []), (kFile, [])]⟩) r) r) r) r) l

/-- Optional information phrase
`(?:(?:information|data|content)\s+(?:about|on|related\s+to))?` of the
search rule (a consuming branch; the inner alternatives are pairwise
non-prefix). -/
def infoPhraseB (l : List Char) : Option (List Char) :=
  litAlt [tokInformation, tokData, tokContent] (fun _ r =>
    (ws1 r).bind fun r =>
      matchLit tokAbout r <|> matchLit tokOn r <|>
        ((matchLit tokRelated r).bind fun r => (ws1 r).bind (matchLit tokTo))) l

/-- Optional source capture `(?:\s+in\s+([^:]+))?$` of the search rule,
returning `match[2] || ''`. -/
def searchTail (l : List Char) : Option (List Char) :=
  ((ws1 l).bind fun r =>
    (matchLit tokIn r).bind fun r =>
      (ws1 r).bind fun r =>
        classPlus isNonColon (fun src rest => if rest = [] then some src else none) r)
  <|> (if l = [] then some [] else none)

/-- Rule `search`:
`/^(?:please\s+)?(?:search|find|look)(?:\s+for)?\s+(?:(?:information|data|content)\s+(?:about|on|related\s+to))?\s*([^:]+)(?:\s+in\s+([^:]+))?$/i`,
params `query` (capture 1 trimmed), `source` (capture 2 or empty).  The
`\s*` before the query is taken maximally: the class `[^:]` contains
whitespace, so a shorter run only shifts the start of the capture without
adding reachable end positions. -/
def ruleSearch (l : List Char) : Option ParsedCommand :=
  tryOpts [pleaseB, skipB] (fun r =>
    litAlt [tokSearch, tokFind, tokLook] (fun _ r =>
      tryOpts [wsThen tokFor, skipB] (fun r =>
        (ws1 r).bind fun r =>
          tryOpts [infoPhraseB, skipB] (fun r =>
            classPlus isNonColon (fun q rest =>
              (searchTail rest).map fun src =>
                ⟨tokSearch, [(kQuery, jsTrim q), (kSource, src)]⟩) (r.dropWhile isJsWs)) r) r) r) l

/-- Branch `set\s+up` of the schedule verbs. -/
def setUpB (l : List Char) : Option (List Char) :=
  (matchLit tokSet l).bind fun r => (ws1 r).bind (matchLit tokUp)

/-- Optional time capture `(?:\s+(?:for|at|on)\s+(.+))?$` of the schedule
rule, returning `match[3] || ''`. -/
def schedTail (l : List Char) : Option (List Char) :=
  ((ws1 l).bind fun r =>
    litAlt [tokFor, tokAt, tokOn] (fun _ r => (ws1 r).bind dotPlus) r)
  <|> (if l = [] then some [] else none)

/-- Rule `schedule`:
`/^(?:please\s+)?(?:schedule|create|book|plan|set\s+up)(?:\s+(?:a|an))?\s+(meeting|event|task|reminder|appointment)(?:\s+(?:called|titled|named))?\s+([^:]+)(?:\s+(?:for|at|on)\s+(.+))?$/i`,
params `type` (capture 1 lower-cased), `description` (capture 2 trimmed),
`time` (capture 3 or empty). -/
def ruleSchedule (l : List Char) : Option ParsedCommand :=
  tryOpts [pleaseB, skipB] (fun r =>
    tryOpts [matchLit tokSchedule, matchLit tokCreate, matchLit tokBook, matchLit tokPlan, setUpB] (fun r =>
      tryOpts [wsThen tokA, wsThen tokAn, skipB] (fun r =>
        (ws1 r).bind fun r =>
          litAlt [tokMeeting, tokEvent, tokTask, tokReminder, tokAppointment] (fun ty r =>
            tryOpts [wsThen tokCalled, wsThen tokTitled, wsThen tokNamed, skipB] (fun r =>
              (ws1 r).bind fun r =>
                classPlus isNonColon (fun d rest =>
                  (schedTail rest).map fun tm =>
                    ⟨tokSchedule, [(kType, ty), (kDescription, jsTrim d), (kTime, tm)]⟩) r) r) r) r) r) l

/-- Filename-shaped capture `([a-zA-Z0-9._-]+\.[a-zA-Z0-9]+)` with
continuation backtracking over both greedy classes. -/
def fileTokSplit {α : Type} (k : List Char → List Char → Option α) (l : List Char) : Option α :=
  classPlus isFileClass (fun p rest =>
    match rest with
    | '.' :: r2 => classPlus isAlnum (fun a rest2 => k (p ++ '.' :: a) rest2) r2
    | _ => none) l

/-- Branches `contents\s+of\s+` and `content\s+of\s+` of the optional group
`(?:contents?\s+of\s+)?` (the greedy `s?` is tried first by listing the
longer branch first). -/
def contentsOfSB (l : List Char) : Option (List Char) :=
  (matchLit tokContents l).bind fun r => (ws1 r).bind fun r => (matchLit tokOf r).bind ws1

/-- Companion of `contentsOfSB` without the plural `s`. -/
def contentOfB (l : List Char) : Option (List Char) :=
  (matchLit tokContent l).bind fun r => (ws1 r).bind fun r => (matchLit tokOf r).bind ws1

/-- Branch `file\s+` of the optional group `(?:file\s+)?`. -/
def fileWsB (l : List Char) : Option (List Char) :=
  (matchLit tokFile l).bind ws1

/-- Rule `read`:
`/^(?:please\s+)?(?:read|open|show|display|view|get)(?:\s+(?:the|my))?\s+(?:contents?\s+of\s+)?(?:file\s+)?([a-zA-Z0-9._-]+\.[a-zA-Z0-9]+)$/i`,
param `filename` (capture 1 trimmed). -/
def ruleRead (l : List Char) : Option ParsedCommand :=
  tryOpts [pleaseB, skipB] (fun r =>
    tryOpts [matchLit tokRead, matchLit tokOpen, matchLit tokShow, matchLit tokDisplay, matchLit tokView, matchLit tokGet] (fun r =>
      tryOpts [wsThen tokThe, wsThen tokMy, skipB] (fun r =>
        (ws1 r).bind fun r =>
          tryOpts [contentsOfSB, contentOfB, skipB] (fun r =>
            tryOpts [fileWsB, skipB] (fun r =>
              fileTokSplit (fun fn rest =>
                if rest = [] then some ⟨tokRead, [(kFilename, jsTrim fn)]⟩ else none) r) r) r) r) r) l

/-- Rule `delete`:
`/^(?:please\s+)?(?:delete|remove|trash)(?:\s+(?:the|my))?\s+(?:file\s+)?([a-zA-Z0-9._-]+\.[a-zA-Z0-9]+)$/i`,
param `filename` (capture 1 trimmed). -/
def ruleDelete (l : List Char) : Option ParsedCommand :=
  tryOpts [pleaseB, skipB] (fun r =>
    tryOpts [matchLit tokDelete, matchLit tokRemove, matchLit tokTrash] (fun r =>
      tryOpts [wsThen tokThe, wsThen tokMy, skipB] (fun r =>
        (ws1 r).bind fun r =>
          tryOpts [fileWsB, skipB] (fun r =>
            fileTokSplit (fun fn rest =>
              if rest = [] then some ⟨tokDelete, [(kFilename, jsTrim fn)]⟩ else none) r) r) r) r) l

/-- Leading-verb check of `extractParameters`:
`/^(?:please\s+)?(?:can\s+you\s+)?(create|list|analyze|search|read|delete|schedule)/i`
(no end anchor); the capture is lower-cased by the caller, which is the
matched token itself. -/
def cmdVerbOf (text : List Char) : Option (List Char) :=
  tryOpts [pleaseB, skipB] (fun r =>
    tryOpts [fun l => (matchLit tokCan l).bind fun r => (ws1 r).bind fun r => (matchLit tokYou r).bind ws1, skipB] (fun r =>
      litAlt [tokCreate, tokList, tokAnalyze, tokSearch, tokRead, tokDelete, tokSchedule] (fun v _ => some v) r) r) text

/-- Bare value alternative `[^,;\s]+` of the key/value pattern. -/
def bareValue (l : List Char) : Option (List Char × List Char) :=
  match l.takeWhile isBareVal with
  | [] => none
  | v => some (v, l.drop v.length)

/-- Value alternatives `("[^"]*"|'[^']*'|[^,;\s]+)` (ordered; a string
starting with one quote kind can only match that quoted alternative or the
bare one). -/
def kvValue (l : List Char) : Option (List Char × List Char) :=
  match l with
  | '"' :: r =>
    (match r.dropWhile (fun c => c ≠ '"') with
     | '"' :: rest => some ('"' :: (r.takeWhile (fun c => c ≠ '"') ++ ['"']), rest)
     | _ => bareValue l)
  | '\'' :: r =>
    (match r.dropWhile (fun c => c ≠ '\'') with
     | '\'' :: rest => some ('\'' :: (r.takeWhile (fun c => c ≠ '\'') ++ ['\'']), rest)
     | _ => bareValue l)
  | _ => bareValue l

/-- Key/value pattern `([a-z0-9_]+)(?::|=)\s*(value)` at the current
position (after the `(?:^|\s+)` alternative has been consumed).  The key
run is maximal, which is exact because shrinking it exposes a key
character, never `:` or `=`; the `\s*` is maximal because no value
alternative starts with whitespace.  The key capture is lower-cased as in
`match[1].toLowerCase()`. -/
def kvTail (l : List Char) : Option ((List Char × List Char) × List Char) :=
  match l.takeWhile isKeyClass with
  | [] => none
  | key =>
    match l.drop key.length with
    | ':' :: r => (kvValue (r.dropWhile isJsWs)).map fun (v, rest) => ((lowerList key, v), rest)
    | '=' :: r => (kvValue (r.dropWhile isJsWs)).map fun (v, rest) => ((lowerList key, v), rest)
    | _ => none

/-- One attempt of the global pattern
`/(?:^|\s+)([a-z0-9_]+)(?::|=)\s*("[^"]*"|'[^']*'|[^,;\s]+)/gi` at the
current position: the `^` alternative applies only at the very start, the
`\s+` alternative consumes the maximal whitespace run (shrinking it exposes
whitespace, which no key starts with). -/
def kvHere (l : List Char) (atStart : Bool) : Option ((List Char × List Char) × List Char) :=
  (if atStart then kvTail l else none) <|> (ws1 l).bind kvTail

/-- Dequoting of a matched value (`substring(1, length-1)` when it starts
and ends with the same quote; a single quote character is returned
unchanged, as `substring(1, 0)` swaps its arguments). -/
def dequote (v : List Char) : List Char :=
  if 2 ≤ v.length ∧ ((v.head? = some '"' ∧ v.getLast? = some '"') ∨ (v.head? = some '\'' ∧ v.getLast? = some '\'')) then
    (v.drop 1).dropLast
  else v

/-- Driving loop of the global `exec` over the key/value pattern: leftmost
match, then continue after it; on failure slide one position.  `fuel`
bounds the recursion by the input length. -/
def kvScan : Nat → List Char → Bool → List (List Char × List Char) → List (List Char × List Char)
  | 0, _, _, acc => acc
  | _ + 1, [], _, acc => acc
  | fuel + 1, l, atStart, acc =>
    match kvHere l atStart with
    | some ((k, v), rest) => kvScan fuel rest false (setParam acc k (dequote v))
    | none => kvScan fuel l.tail false acc

/-- One attempt of `/\b([a-zA-Z0-9._-]+\.[a-zA-Z0-9]+)\b/` at the current
position; `prev` is the preceding character.  The trailing boundary check
rejects a following word character; shrinking the final `[a-zA-Z0-9]+` run
cannot help, because the next character would then be alphanumeric — a word
character again — so rejection correctly falls back to the outer splits. -/
def fnHere (l : List Char) (prev : Option Char) : Option (List Char) :=
  if (match l with
      | [] => false
      | c :: _ => (prev.elim false (fun p => isWordChar p)) != isWordChar c) then
    fileTokSplit (fun fn rest =>
      match rest with
      | [] => some fn
      | c :: _ => if isWordChar c then none else some fn) l
  else none

/-- Leftmost search for the filename pattern. -/
def fnScan : Nat → List Char → Option Char → Option (List Char)
  | 0, _, _ => none
  | _ + 1, [], _ => none
  | fuel + 1, l, prev =>
    match fnHere l prev with
    | some fn => some fn
    | none =>
      match l with
      | [] => none
      | c :: rest => fnScan fuel rest (some c)

/-- Embedding of `extractParameters` of `src/utils/commandParser.ts`:
leading verb into `command`, then the key/value scan, then the filename
scan guarded by the truthiness of `params.filename` and `params.file`. -/
def extractParameters (text : List Char) : List (List Char × List Char) :=
  let params : List (List Char × List Char) :=
    match cmdVerbOf text with
    | some v => [(kCommand, v)]
    | none => []
  let params := kvScan (text.length + 1) text true params
  match fnScan (text.length + 1) text none with
  | some fn =>
    if !paramTruthy params kFilename ∧ !paramTruthy params kFile then
      setParam params kFilename fn
    else params
  | none => params

/-- Literal help check of `detectCommand`:
`/^(?:help|commands|help with commands|show commands)$/i` applied to the
trimmed message (the alternatives are plain literals, so the test is a
case-insensitive comparison with the four synonyms). -/
def isHelpLiteral (t : List Char) : Bool :=
  lowerList t == tokHelp ||
  lowerList t == tokCommands ||
  lowerList t == (tokHelp ++ ' ' :: tokWith ++ ' ' :: tokCommands) ||
  lowerList t == (tokShow ++ ' ' :: tokCommands)

/-- Embedding of `detectCommand` of `src/utils/commandParser.ts`: the help
literal first, then the rules in the declared object order `create`,
`list`, `analyze`, `search`, `schedule`, `read`, `delete` (the `for … of
Object.entries` loop returns on the first match), then the free-form
fallback `extractParameters` whose truthy `command` key is split off. -/
def detectCommand (message : List Char) : Option ParsedCommand :=
  if isHelpLiteral (jsTrim message) then some ⟨tokHelp, []⟩
  else
    match ruleCreate (jsTrim message) with
    | some pc => some pc
    | none =>
      match ruleList (jsTrim message) with
      | some pc => some pc
      | none =>
        match ruleAnalyze (jsTrim message) with
        | some pc => some pc
        | none =>
          match ruleSearch (jsTrim message) with
          | some pc => some pc
          | none =>
            match ruleSchedule (jsTrim message) with
            | some pc => some pc
            | none =>
              match ruleRead (jsTrim message) with
              | some pc => some pc
              | none =>
                match ruleDelete (jsTrim message) with
                | some pc => some pc
                | none =>
                  let ps := extractParameters message
                  match ps.lookup kCommand with
                  | some cmd => if cmd = [] then none else some ⟨cmd, delParam ps kCommand⟩
                  | none => none

/-- Declared rule list of `commandPatterns`, in source order, with the
per-rule parameter shaping applied. -/
def rulesInOrder : List (List Char → Option ParsedCommand) :=
  [ruleCreate, ruleList, ruleAnalyze, ruleSearch, ruleSchedule, ruleRead, ruleDelete]

/-- First-match evaluation of an ordered rule list. -/
def firstRule : List (List Char → Option ParsedCommand) → List Char → Option ParsedCommand
  | [], _ => none
  | r :: rs, t =>
    match r t with
    | some pc => some pc
    | none => firstRule rs t

/-- Scanner for `/\.\./g` removal: `pending` records a read but not yet
emitted dot.  On a second dot the pair is dropped and scanning resumes
after it (matches are non-overlapping, left to right); otherwise the
pending dot is emitted. -/
def rddAux : Bool → List Char → List Char
  | false, [] => []
  | true, [] => ['.']
  | false, c :: rest => if c = '.' then rddAux true rest else c :: rddAux false rest
  | true, c :: rest => if c = '.' then rddAux false rest else '.' :: c :: rddAux false rest

/-- Left-to-right removal of the non-overlapping matches of `/\.\./g`,
modelling `filename.replace(/\.\./g, '')`. -/
def removeDotDot (l : List Char) : List Char := rddAux false l

/-- Steps of `sanitizeFilename` of `src/utils/fileSystem.ts`:
`.replace(/\.\./g, '')` then `.replace(/[\/\\]/g, '')` then
`.replace(/[^a-zA-Z0-9._-]/g, '_')`. -/
def sanitizeCore (l : List Char) : List Char :=
  ((removeDotDot l).filter (fun c => !(c == '/' || c == '\\'))).map
    (fun c => if isFileClass c then c else '_')

/-- Embedding of `sanitizeFilename` (empty results become "unnamed_file"). -/
def sanitizeFilename (l : List Char) : List Char :=
  if sanitizeCore l = [] then ("unnamed_file").toList else sanitizeCore l

/-- Index of the last `'.'` of a name, if any. -/
def lastDotIdx (l : List Char) : Option Nat :=
  match l.reverse.findIdx? (fun c => c = '.') with
  | none => none
  | some j => some (l.length - 1 - j)

/-- Node `path.extname` restricted to separator-free names: the suffix from
the last dot, except that a leading dot (hidden files) and the special name
".." give an empty extension. -/
def nodeExtname (l : List Char) : List Char :=
  match lastDotIdx l with
  | none => []
  | some 0 => []
  | some i => if l = ['.', '.'] then [] else l.drop i

/-- Node `path.basename(name, ext)` for `ext = nodeExtname name` and a
separator-free name: the name with its extension suffix removed. -/
def nodeBasenameNoExt (l : List Char) : List Char :=
  match lastDotIdx l with
  | none => l
  | some 0 => l
  | some i => if l = ['.', '.'] then l else l.take i

/-- UTF-8 byte length of a string (`Buffer.from(content).length`). -/
def utf8Len (l : List Char) : Nat := (l.map (fun c => c.utf8Size)).sum

/-- Embedding of `validateFileContent`: the 1 MiB ceiling. -/
def validateFileContent (content : List Char) : Bool :=
  !(utf8Len content > 1 * 1024 * 1024)

/-- Allow-list of `isAllowedFileType`. -/
def allowedExtensions : List (List Char) :=
  [(".txt").toList, (".md").toList, (".json").toList, (".csv").toList, (".yaml").toList, (".yml").toList,
   (".js").toList, (".jsx").toList, (".ts").toList, (".tsx").toList, (".html").toList, (".css").toList, (".scss").toList,
   (".py").toList, (".rb").toList, (".php").toList, (".java").toList, (".c").toList, (".cpp").toList, (".cs").toList,
   (".env").toList, (".config").toList, (".ini").toList, (".conf").toList]

/-- Embedding of `isAllowedFileType`: `path.extname(filename).toLowerCase()`
must be in the allow-list. -/
def isAllowedFileType (filename : List Char) : Bool :=
  allowedExtensions.contains (lowerList (nodeExtname filename))

/-- External collaborators of the file store: the process working directory
(as path components), the clock (`Date.now().toString()`) and node's
`crypto` md5 hex digest. -/
structure FsEnv where
  cwd : List (List Char)
  now : List Char
  md5hex : List Char → List Char

/-- Well-formedness of the digest oracle: an md5 hex digest is 32 lower-case
hexadecimal characters. -/
def Md5Wf (env : FsEnv) : Prop :=
  ∀ s, (env.md5hex s).length = 32 ∧ ∀ c ∈ env.md5hex s, c.isDigit ∨ ('a' ≤ c ∧ c ≤ 'f')

/-- Embedding of `generateUniqueFilename`:
`${name without ext}_${md5(content + Date.now()).hex.substring(0,8)}${ext}`. -/
def generateUniqueFilename (env : FsEnv) (filename content : List Char) : List Char :=
  nodeBasenameNoExt filename ++ '_' :: ((env.md5hex (content ++ env.now)).take 8 ++ nodeExtname filename)

/-- Contents of the safe directory: stored file name ↦ file content. -/
abbrev FsStore := List (List Char × List Char)

/-- Component-wise normalisation performed by Node `path.join`: "." is
dropped and ".." pops the previous component. -/
def normComponents (acc : List (List Char)) : List (List Char) → List (List Char)
  | [] => acc
  | c :: rest =>
    if c = [] ∨ c = ['.'] then normComponents acc rest
    else if c = ['.', '.'] then normComponents acc.dropLast rest
    else normComponents (acc ++ [c]) rest

/-- Components of `SAFE_DIR = path.join(process.cwd(), 'user-files')`. -/
def safeDirComponents (cwd : List (List Char)) : List (List Char) :=
  cwd ++ [("user-files").toList]

/-- Components of `path.join(SAFE_DIR, name)` for a separator-free `name`. -/
def joinedComponents (cwd : List (List Char)) (name : List Char) : List (List Char) :=
  normComponents [] (safeDirComponents cwd ++ [name])

/-- Rendering of absolute path components as a string. -/
def renderAbs (comps : List (List Char)) : List Char :=
  comps.foldl (fun acc c => acc ++ '/' :: c) []

/-- Result record `FileOperationResult` (with the optional `content` of
`readFile`). -/
structure FileOpResult where
  success : Bool
  message : List Char
  path : Option (List Char)
  error : Option (List Char)
  content : Option (List Char)
deriving DecidableEq

/-- Embedding of `saveFile` of `src/utils/fileSystem.ts`; the returned store
is the safe directory after the operation (`fs.promises.writeFile`). -/
def saveFile (env : FsEnv) (store : FsStore) (filename content : List Char) : FileOpResult × FsStore :=
  if filename = [] then
    ({ success := false, message := ("Invalid filename or content").toList,
       path := none, error := some (("INVALID_INPUT").toList), content := none }, store)
  else
    let sanitizedName := sanitizeFilename filename
    if !isAllowedFileType sanitizedName then
      ({ success := false,
         message := ("File type not allowed. Permitted types include text files, code, and documents.").toList,
         path := none, error := some (("INVALID_FILE_TYPE").toList), content := none }, store)
    else if !validateFileContent content then
      ({ success := false,
         message := ("File content exceeds maximum size or contains invalid data").toList,
         path := none, error := some (("INVALID_CONTENT").toList), content := none }, store)
    else
      let uniqueFilename := generateUniqueFilename env sanitizedName content
      let fullPath := renderAbs (joinedComponents env.cwd uniqueFilename)
      ({ success := true,
         message := ("File ").toList ++ uniqueFilename ++ (" created successfully").toList,
         path := some fullPath, error := none, content := none },
       setParam store uniqueFilename content)

/-- Embedding of `readFile`; the store holds the regular files inside the
safe directory, keyed by name (`fs.existsSync` then `fs.promises.readFile`). -/
def readFile (env : FsEnv) (store : FsStore) (filename : List Char) : FileOpResult :=
  let sanitizedName := sanitizeFilename filename
  let fullPath := renderAbs (joinedComponents env.cwd sanitizedName)
  match store.lookup sanitizedName with
  | none =>
    { success := false, message := ("File ").toList ++ sanitizedName ++ (" not found").toList,
      path := none, error := some (("FILE_NOT_FOUND").toList), content := none }
  | some c =>
    { success := true, message := ("File ").toList ++ sanitizedName ++ (" read successfully").toList,
      path := some fullPath, error := none, content := some c }

/-- Embedding of `deleteFile`. -/
def deleteFile (env : FsEnv) (store : FsStore) (filename : List Char) : FileOpResult × FsStore :=
  let sanitizedName := sanitizeFilename filename
  let fullPath := renderAbs (joinedComponents env.cwd sanitizedName)
  match store.lookup sanitizedName with
  | none =>
    ({ success := false, message := ("File ").toList ++ sanitizedName ++ (" not found").toList,
       path := none, error := some (("FILE_NOT_FOUND").toList), content := none }, store)
  | some _ =>
    ({ success := true, message := ("File ").toList ++ sanitizedName ++ (" deleted successfully").toList,
       path := some fullPath, error := none, content := none },
     store.filter (fun p => p.1 ≠ sanitizedName))

/-- Embedding of `listFiles` (`fs.promises.readdir`). -/
def listFilesOp (store : FsStore) : List (List Char) :=
  store.map (·.1)

/-- Role of a conversation record (`'user' | 'agent'`). -/
inductive MemRole where
  | user : MemRole
  | agent : MemRole
deriving DecidableEq

/-- Conversation item of `src/utils/memory.ts` (timestamps are abstract
clock readings). -/
structure ConversationItem where
  role : MemRole
  content : List Char
  timestamp : Nat
  agentId : Option (List Char)
deriving DecidableEq

/-- Per-agent record of the in-memory `memoryStore`. -/
structure AgentMemory where
  agentId : List Char
  conversations : List ConversationItem
  lastUpdated : Nat
deriving DecidableEq

/-- The `memoryStore` object. -/
def MemStore := List Char → Option AgentMemory

/-- Empty store. -/
def emptyMemStore : MemStore := fun _ => none

/-- Input of `addToMemory` (the item without its timestamp). -/
structure MemItemIn where
  role : MemRole
  content : List Char
  agentId : Option (List Char)
deriving DecidableEq

/-- Cap of the history length: keep the last 100 items
(`if (… .length > 100) … = … .slice(-100)`). -/
def cap100 (l : List ConversationItem) : List ConversationItem :=
  if l.length > 100 then l.drop (l.length - 100) else l

/-- Embedding of `addToMemory`: create the agent entry on demand, push the
timestamped item, keep the last 100 items. -/
def addToMemory (now : Nat) (store : MemStore) (agentId : List Char) (item : MemItemIn) : MemStore :=
  let prev :=
    match store agentId with
    | some m => m
    | none => { agentId := agentId, conversations := [], lastUpdated := now }
  let convs := cap100 (prev.conversations ++ [⟨item.role, item.content, now, item.agentId⟩])
  fun k =>
    if k = agentId then some { agentId := agentId, conversations := convs, lastUpdated := now }
    else store k

/-- Embedding of `getMemory`: `conversations.slice(-limit)`; JavaScript
`slice(-0)` is `slice(0)`, the whole array. -/
def getMemory (store : MemStore) (agentId : List Char) (limit : Nat) : List ConversationItem :=
  match store agentId with
  | none => []
  | some m =>
    if limit = 0 then m.conversations
    else m.conversations.drop (m.conversations.length - limit)

/-- Parsed JSON value (`JSON.parse`); numbers keep their lexeme, which is
never inspected beyond `typeof`. -/
inductive Json where
  | null : Json
  | bool : Bool → Json
  | num : List Char → Json
  | str : List Char → Json
  | arr : List Json → Json
  | obj : List (List Char × Json) → Json

/-- JavaScript `typeof` of a parsed JSON value (`null`, arrays and objects
are "object"). -/
def jsTypeof : Json → List Char
  | .null => ("object").toList
  | .bool _ => ("boolean").toList
  | .num _ => ("number").toList
  | .str _ => ("string").toList
  | .arr _ => ("object").toList
  | .obj _ => ("object").toList

/-- Duplicate keys in a JSON object text: the first position is kept, the
value is overwritten (JavaScript object semantics during parsing). -/
def setField (fs : List (List Char × Json)) (k : List Char) (v : Json) : List (List Char × Json) :=
  match fs with
  | [] => [(k, v)]
  | (k', v') :: rest => if k' = k then (k, v) :: rest else (k', v') :: setField rest k v

/-- JSON whitespace. -/
def jsonWs (c : Char) : Bool := c == ' ' || c == '\t' || c == '\n' || c == '\r'

/-- Hex digit value for `\uXXXX` escapes. -/
def hexVal (c : Char) : Option Nat :=
  if c.isDigit then some (c.toNat - '0'.toNat)
  else if 'a' ≤ c ∧ c ≤ 'f' then some (c.toNat - 'a'.toNat + 10)
  else if 'A' ≤ c ∧ c ≤ 'F' then some (c.toNat - 'A'.toNat + 10)
  else none

/-- Body of a JSON string after the opening quote. -/
def parseStringBody : Nat → List Char → Except (List Char) (List Char × List Char)
  | 0, _ => .error (("Unexpected end of JSON input").toList)
  | _ + 1, [] => .error (("Unterminated string in JSON").toList)
  | fuel + 1, c :: rest =>
    if c = '"' then .ok ([], rest)
    else if c = '\\' then
      match rest with
      | 'n' :: r => (parseStringBody fuel r).map fun (s, r') => ('\n' :: s, r')
      | 't' :: r => (parseStringBody fuel r).map fun (s, r') => ('\t' :: s, r')
      | 'r' :: r => (parseStringBody fuel r).map fun (s, r') => ('\r' :: s, r')
      | 'b' :: r => (parseStringBody fuel r).map fun (s, r') => ('\x08' :: s, r')
      | 'f' :: r => (parseStringBody fuel r).map fun (s, r') => ('\x0c' :: s, r')
      | '"' :: r => (parseStringBody fuel r).map fun (s, r') => ('"' :: s, r')
      | '\\' :: r => (parseStringBody fuel r).map fun (s, r') => ('\\' :: s, r')
      | '/' :: r => (parseStringBody fuel r).map fun (s, r') => ('/' :: s, r')
      | 'u' :: h1 :: h2 :: h3 :: h4 :: r =>
        (match hexVal h1, hexVal h2, hexVal h3, hexVal h4 with
         | some a, some b, some c', some d =>
           let n := ((a * 16 + b) * 16 + c') * 16 + d
           if h : n.isValidChar then
             (parseStringBody fuel r).map fun (s, r') => (Char.ofNatAux n h :: s, r')
           else .error (("Bad Unicode escape in JSON").toList)
         | _, _, _, _ => .error (("Bad Unicode escape in JSON").toList))
      | _ => .error (("Bad escaped character in JSON").toList)
    else (parseStringBody fuel rest).map fun (s, r') => (c :: s, r')

/-- Lexeme of a JSON number: `-?digits(.digits)?([eE][+-]?digits)?`. -/
def parseNumber (l : List Char) : Except (List Char) (List Char × List Char) :=
  let neg : List Char := if l.head? = some '-' then ['-'] else []
  let l1 : List Char := if l.head? = some '-' then l.tail else l
  let intPart : List Char := l1.takeWhile (fun c => c.isDigit)
  if intPart = [] then .error (("Unexpected token in JSON").toList)
  else
    let l2 : List Char := l1.drop intPart.length
    let fracDs : List Char :=
      match l2 with
      | '.' :: r => r.takeWhile (fun c => c.isDigit)
      | _ => []
    let frac : List Char := if fracDs = [] then [] else '.' :: fracDs
    let l3 : List Char := if fracDs = [] then l2 else l2.drop (fracDs.length + 1)
    let expLex : List Char :=
      match l3 with
      | 'e' :: '+' :: r => if r.takeWhile (fun c => c.isDigit) = [] then [] else 'e' :: '+' :: r.takeWhile (fun c => c.isDigit)
      | 'e' :: '-' :: r => if r.takeWhile (fun c => c.isDigit) = [] then [] else 'e' :: '-' :: r.takeWhile (fun c => c.isDigit)
      | 'e' :: r => if r.takeWhile (fun c => c.isDigit) = [] then [] else 'e' :: r.takeWhile (fun c => c.isDigit)
      | 'E' :: '+' :: r => if r.takeWhile (fun c => c.isDigit) = [] then [] else 'E' :: '+' :: r.takeWhile (fun c => c.isDigit)
      | 'E' :: '-' :: r => if r.takeWhile (fun c => c.isDigit) = [] then [] else 'E' :: '-' :: r.takeWhile (fun c => c.isDigit)
      | 'E' :: r => if r.takeWhile (fun c => c.isDigit) = [] then [] else 'E' :: r.takeWhile (fun c => c.isDigit)
      | _ => []
    .ok (neg ++ intPart ++ frac ++ expLex, l3.drop expLex.length)

mutual

/-- Recursive-descent JSON value parser (`fuel` bounds the recursion depth
by the input length). -/
def parseValue : Nat → List Char → Except (List Char) (Json × List Char)
  | 0, _ => .error (("Unexpected end of JSON input").toList)
  | fuel + 1, l =>
    match l.dropWhile jsonWs with
    | [] => .error (("Unexpected end of JSON input").toList)
    | '{' :: r => parseObjFields fuel r []
    | '[' :: r => parseArrItems fuel r []
    | '"' :: r => (parseStringBody (fuel + 1) r).map fun (s, r') => (.str s, r')
    | 't' :: 'r' :: 'u' :: 'e' :: r => .ok (.bool true, r)
    | 'f' :: 'a' :: 'l' :: 's' :: 'e' :: r => .ok (.bool false, r)
    | 'n' :: 'u' :: 'l' :: 'l' :: r => .ok (.null, r)
    | l' => (parseNumber l').map fun (n, r') => (.num n, r')

/-- Fields of a JSON object after `{` (or after a comma), accumulating into
`acc`. -/
def parseObjFields : Nat → List Char → List (List Char × Json) → Except (List Char) (Json × List Char)
  | 0, _, _ => .error (("Unexpected end of JSON input").toList)
  | fuel + 1, l, acc =>
    match l.dropWhile jsonWs with
    | '}' :: r => if acc.isEmpty then .ok (.obj [], r) else .error (("Trailing comma in JSON object").toList)
    | '"' :: r =>
      match parseStringBody (fuel + 1) r with
      | .error e => .error e
      | .ok (key, r1) =>
        match r1.dropWhile jsonWs with
        | ':' :: r2 =>
          match parseValue fuel r2 with
          | .error e => .error e
          | .ok (v, r3) =>
            match r3.dropWhile jsonWs with
            | ',' :: r4 => parseObjFields fuel r4 (setField acc key v)
            | '}' :: r4 => .ok (.obj (setField acc key v), r4)
            | _ => .error (("Expected comma or closing brace in JSON object").toList)
        | _ => .error (("Expected colon in JSON object").toList)
    | _ => .error (("Expected property name in JSON object").toList)

/-- Items of a JSON array after `[` (or after a comma). -/
def parseArrItems : Nat → List Char → List Json → Except (List Char) (Json × List Char)
  | 0, _, _ => .error (("Unexpected end of JSON input").toList)
  | fuel + 1, l, acc =>
    match l.dropWhile jsonWs with
    | ']' :: r => if acc.isEmpty then .ok (.arr [], r) else .error (("Trailing comma in JSON array").toList)
    | _ =>
      match parseValue fuel l with
      | .error e => .error e
      | .ok (v, r1) =>
        match r1.dropWhile jsonWs with
        | ',' :: r2 => parseArrItems fuel r2 (acc ++ [v])
        | ']' :: r2 => .ok (.arr (acc ++ [v]), r2)
        | _ => .error (("Expected comma or closing bracket in JSON array").toList)

end

/-- Model of `JSON.parse`: a whole-input JSON value.  Failures carry the
parser's diagnostic message (standing for the `SyntaxError.message` of the
JavaScript engine). -/
def jsonParse (l : List Char) : Except (List Char) Json :=
  match parseValue (l.length + 1) l with
  | .error e => .error e
  | .ok (v, rest) =>
    if rest.dropWhile jsonWs = [] then .ok v
    else .error (("Unexpected non-whitespace character after JSON data").toList)

/-- JavaScript `Object.keys` of a parsed JSON value: own enumerable keys —
field names for objects, index strings for arrays and strings, nothing for
primitives (object keys are unique by construction of `setField`). -/
def jsObjKeys : Json → List (List Char)
  | .obj fs => fs.map (·.1)
  | .arr xs => (List.range xs.length).map (fun i => (toString i).toList)
  | .str s => (List.range s.length).map (fun i => (toString i).toList)
  | _ => []

/-- Property access `parsedJson[k]` for the keys produced by `jsObjKeys`
(the `.null` fallback stands for `undefined` and is unreachable for such
keys on objects and arrays). -/
def jsIndex : Json → List Char → Json
  | .obj fs, k => (fs.lookup k).getD .null
  | .arr xs, k =>
    (match (List.range xs.length).find? (fun i => (toString i).toList = k) with
     | some i => xs.getD i .null
     | none => .null)
  | .str s, k =>
    (match (List.range s.length).find? (fun i => (toString i).toList = k) with
     | some i => .str [s.getD i ' ']
     | none => .null)
  | _, _ => .null

/-- ASCII upper-casing of one character (`charAt(0).toUpperCase()`). -/
def upperChar (c : Char) : Char :=
  if 'a' ≤ c ∧ c ≤ 'z' then Char.ofNat (c.toNat - 32) else c

/-- Capitalisation `type.charAt(0).toUpperCase() + type.slice(1)`. -/
def capitalize (l : List Char) : List Char :=
  match l with
  | [] => []
  | c :: rest => upperChar c :: rest

/-- Decimal rendering of a number interpolated into a template string. -/
def natStr (n : Nat) : List Char := (toString n).toList

/-- JavaScript `split` on a single-character separator. -/
def splitOnChar (sep : Char) : List Char → List (List Char)
  | [] => [[]]
  | c :: rest =>
    let r := splitOnChar sep rest
    if c = sep then [] :: r
    else (c :: r.headD []) :: r.tail

/-- Character-level split on a predicate.  `split(/\s+/).filter(Boolean)`
produces the same nonempty fields as the character-level split followed by
the same filter, since a separator run only contributes empty fields. -/
def splitOnPred (p : Char → Bool) : List Char → List (List Char)
  | [] => [[]]
  | c :: rest =>
    let r := splitOnPred p rest
    if p c then [] :: r
    else (c :: r.headD []) :: r.tail

/-- Extension display `filename.split('.').pop()?.toLowerCase()`. -/
def extOfFilename (filename : List Char) : List Char :=
  lowerList ((splitOnChar '.' filename).getLastD [])

/-- Allow-list of fenced code extensions of the script-launcher read
branch. -/
def codeFileTypes : List (List Char) :=
  [("js").toList, ("jsx").toList, ("ts").toList, ("tsx").toList, ("html").toList, ("css").toList,
   ("py").toList, ("rb").toList, ("java").toList, ("c").toList, ("cpp").toList, ("cs").toList]

/-- Agent ids of `src/config/agents.json`. -/
def agentIds : List (List Char) :=
  [("text-generator").toList, ("data-processor").toList, ("decision-maker").toList, ("script-launcher").toList]

/-- Extension table of the create handler. -/
def extensionMap : List (List Char × List Char) :=
  [(("script").toList, (".js").toList), (("file").toList, (".txt").toList), (("document").toList, (".md").toList),
   (("json").toList, (".json").toList), (("html").toList, (".html").toList), (("css").toList, (".css").toList),
   (("python").toList, (".py").toList), (("typescript").toList, (".ts").toList), (("javascript").toList, (".js").toList)]

/-- Filename formed by the create handler: the extension from the table
(default `.txt`) is appended when the name contains no dot
(`if (!filename.includes('.')) … extensionMap[type.toLowerCase()] || '.txt'`). -/
def createFilename (ty nm : List Char) : List Char :=
  if nm.contains '.' then nm
  else nm ++ (extensionMap.lookup (lowerList ty)).getD ((".txt").toList)

/-- Relative path shown by the create handler:
`result.path.replace(process.cwd(), '').replace(/\\/g, '/')` — the working
directory prefix is removed from the rendered absolute path. -/
def relativePathOf (env : FsEnv) (fullPath : List Char) : List Char :=
  fullPath.drop (renderAbs env.cwd).length

/-- Message of the script-launcher create branch. -/
def createMessage (env : FsEnv) (store : FsStore) (ty nm content : List Char) : (List Char × FsStore) :=
  let filename := createFilename ty nm
  let res := saveFile env store filename content
  if res.1.success then
    (capitalize ty ++ (" created successfully:\n- Name: ").toList ++ filename ++
      ("\n- Path: ").toList ++ relativePathOf env (res.1.path.getD []) ++
      ("\n- Size: ").toList ++ natStr (utf8Len content) ++
      (" bytes\n\nThe file has been saved to your user-files directory. You can access it at ").toList ++
      relativePathOf env (res.1.path.getD []) ++ (".").toList, res.2)
  else
    (("Failed to create ").toList ++ ty ++ (":\n- Name: ").toList ++ filename ++
      ("\n- Error: ").toList ++ (res.1.error.getD []) ++
      ("\n- Message: ").toList ++ res.1.message ++
      ("\n\nPlease check the filename and content and try again.").toList, res.2)

/-- Message of the data-processor analyze/json success branch. -/
def jsonAnalysisMessage (parsed : Json) (file : List Char) : List Char :=
  let keys := jsObjKeys parsed
  ("JSON Analysis Results:\n- Valid JSON structure: Yes\n- Number of top-level keys: ").toList ++
    natStr keys.length ++
    ("\n- Keys: ").toList ++ List.intercalate ((", ").toList) keys ++
    ("\n- Data types: ").toList ++
    List.intercalate ((", ").toList)
      (keys.map fun k => k ++ (": ").toList ++ jsTypeof (jsIndex parsed k)) ++
    ("\n\nThis represents a basic analysis of the JSON structure").toList ++
    (if file ≠ [] then (" in file \"").toList ++ file ++ ("\"").toList else []) ++
    (".").toList

/-- Message of the data-processor analyze/json failure branch. -/
def jsonInvalidMessage (e : List Char) (file : List Char) : List Char :=
  ("Invalid JSON provided").toList ++
    (if file ≠ [] then (" in file \"").toList ++ file ++ ("\"").toList else []) ++
    (". Please check the formatting and try again. Error: ").toList ++ e

/-- Create branch of the script-launcher (`case 'script-launcher'`,
`command === 'create'`). -/
def scriptCreateB (env : FsEnv) (store : FsStore) (ps : List (List Char × List Char)) : Option (List Char) × FsStore :=
  let ty := (ps.lookup kType).getD []
  let nm := (ps.lookup kName).getD []
  let content := (ps.lookup kContent).getD []
  let r := createMessage env store ty nm content
  (some r.1, r.2)

/-- List branch of the script-launcher. -/
def scriptListB (store : FsStore) : Option (List Char) × FsStore :=
  let files := listFilesOp store
  if files.length = 0 then
    (some (("No files found in the user-files directory.").toList), store)
  else
    (some (("Files in your user-files directory:\n").toList ++
      List.intercalate (("\n").toList) (files.map fun f => ("- ").toList ++ f) ++
      ("\n\nTotal: ").toList ++ natStr files.length ++ (" file(s)").toList), store)

/-- Read branch of the script-launcher: raw content, fenced for the code
extension allow-list, no truncation. -/
def scriptReadB (env : FsEnv) (store : FsStore) (ps : List (List Char × List Char)) : Option (List Char) × FsStore :=
  let filename := (ps.lookup kFilename).getD []
  if filename = [] then
    (some (("Please specify a filename to read.").toList), store)
  else
    let res := readFile env store filename
    match res.content with
    | some c =>
      if res.success ∧ c ≠ [] then
        let ext := extOfFilename filename
        let isCodeFile := codeFileTypes.contains ext
        (some (("File: ").toList ++ filename ++ ("\nPath: ").toList ++ (res.path.getD []) ++
          ("\n\n").toList ++
          (if isCodeFile then ("```").toList ++ ext ++ ("\n").toList else []) ++ c ++
          (if isCodeFile then ("\n```").toList else [])), store)
      else
        (some (("Failed to read file \"").toList ++ filename ++ ("\": ").toList ++
          ((res.error).getD res.message)), store)
    | none =>
      (some (("Failed to read file \"").toList ++ filename ++ ("\": ").toList ++
        ((res.error).getD res.message)), store)

/-- Delete branch of the script-launcher. -/
def scriptDeleteB (env : FsEnv) (store : FsStore) (ps : List (List Char × List Char)) : Option (List Char) × FsStore :=
  let filename := (ps.lookup kFilename).getD []
  if filename = [] then
    (some (("Please specify a filename to delete.").toList), store)
  else
    let r := deleteFile env store filename
    if r.1.success then
      (some (("File \"").toList ++ filename ++ ("\" has been successfully deleted.").toList), r.2)
    else
      (some (("Failed to delete file \"").toList ++ filename ++ ("\": ").toList ++
        ((r.1.error).getD r.1.message)), r.2)

/-- Analyze branch of the data-processor: optional file resolution
(`if (file && !content)`), the JSON analysis on `params.type === 'json' &&
params.content`, and the generic fallback message. -/
def dataAnalyzeB (env : FsEnv) (store : FsStore) (ps : List (List Char × List Char)) : Option (List Char) × FsStore :=
  let ty0 := (ps.lookup kType).getD []
  let content0 := (ps.lookup kContent).getD []
  let file0 := (ps.lookup kFile).getD []
  let resolved : Except (List Char) (List Char × List Char) :=
    if file0 ≠ [] ∧ content0 = [] then
      let fileResult := readFile env store file0
      match fileResult.content with
      | some c =>
        if fileResult.success ∧ c ≠ [] then
          .ok (if ty0 = [] then
                 (let ext := extOfFilename file0
                  if ext = tokJson then tokJson
                  else if ext = ("txt").toList ∨ ext = ("md").toList then tokText
                  else if ext = [] then ("unknown").toList else ext)
               else ty0, c)
        else
          .error (("Failed to read file \"").toList ++ file0 ++ ("\": ").toList ++
            ((fileResult.error).getD fileResult.message))
      | none =>
        .error (("Failed to read file \"").toList ++ file0 ++ ("\": ").toList ++
          ((fileResult.error).getD fileResult.message))
    else .ok (ty0, content0)
  match resolved with
  | .error msg => (some msg, store)
  | .ok (ty, content) =>
    if ty = tokJson ∧ content ≠ [] then
      match jsonParse content with
      | .ok parsed => (some (jsonAnalysisMessage parsed file0), store)
      | .error e => (some (jsonInvalidMessage e file0), store)
    else
      (some (("Analysis of ").toList ++ (if ty = [] then tokContent else ty) ++
        (" initiated").toList ++
        (if file0 ≠ [] then (" for file \"").toList ++ file0 ++ ("\"").toList else []) ++
        (". In a real implementation, I would process the content and provide detailed analysis.").toList), store)

/-- Read branch of the data-processor: line/word/character stats and the
500-character preview with ellipsis. -/
def dataReadB (env : FsEnv) (store : FsStore) (ps : List (List Char × List Char)) : Option (List Char) × FsStore :=
  let filename := (ps.lookup kFilename).getD []
  if filename = [] then
    (some (("Please specify a filename to read.").toList), store)
  else
    let res := readFile env store filename
    match res.content with
    | some c =>
      if res.success ∧ c ≠ [] then
        let ext := extOfFilename filename
        let lines := (splitOnChar '\n' c).length
        let chars := c.length
        let words := ((splitOnPred isJsWs c).filter (fun w => w ≠ [])).length
        (some (("File Analysis: ").toList ++ filename ++ ("\nPath: ").toList ++ (res.path.getD []) ++
          ("\n\nStats:\n- Lines: ").toList ++ natStr lines ++
          ("\n- Words: ").toList ++ natStr words ++
          ("\n- Characters: ").toList ++ natStr chars ++
          ("\n- File type: ").toList ++ (if ext = [] then ("unknown").toList else ext) ++
          ("\n\nPreview:\n").toList ++
          (if c.length > 500 then c.take 500 ++ ("...").toList else c)), store)
      else
        (some (("Failed to read file \"").toList ++ filename ++ ("\": ").toList ++
          ((res.error).getD res.message)), store)
    | none =>
      (some (("Failed to read file \"").toList ++ filename ++ ("\": ").toList ++
        ((res.error).getD res.message)), store)

/-- Schedule branch of the decision-maker. -/
def decisionScheduleB (store : FsStore) (ps : List (List Char × List Char)) : Option (List Char) × FsStore :=
  let ty := (ps.lookup kType).getD []
  let description := (ps.lookup kDescription).getD []
  let time := (ps.lookup kTime).getD []
  (some (capitalize ty ++ (" scheduled:\n- Description: ").toList ++ description ++
    ("\n- Time: ").toList ++ (if time = [] then ("Not specified").toList else time) ++
    ("\n\nI've logged this ").toList ++ ty ++
    (" for you. In a real implementation, this would be added to your calendar or task list.").toList), store)

/-- Search branch of the text-generator. -/
def textSearchB (store : FsStore) (ps : List (List Char × List Char)) : Option (List Char) × FsStore :=
  let query := (ps.lookup kQuery).getD []
  let source := (ps.lookup kSource).getD []
  (some (("Search results for \"").toList ++ query ++ ("\"").toList ++
    (if source ≠ [] then (" in ").toList ++ source else []) ++
    (":\n\nIn a real implementation, I would connect to a search API or database to find relevant information about \"").toList ++
    query ++ ("\". For now, this is a simulated response indicating that the search command was properly parsed and recognized.").toList), store)

/-- Embedding of `handleSpecializedCommand` of
`src/app/api/agents/execute/route.ts`: the `(agent.id, command)` switch
over the deterministic behaviours; unmatched combinations return `none`
(the `null` that sends the coordinator to the generative fallback).  The
unused `context` argument is omitted.  A parsed `create` command always
carries `type` and `name` (the JavaScript handler would throw on
`undefined` there; every use below supplies both), so the total model
reads all parameters with an empty default. -/
def handleSpecializedCommand (env : FsEnv) (store : FsStore) (agentIdv : List Char) (pc : ParsedCommand) : Option (List Char) × FsStore :=
  if agentIdv = ("script-launcher").toList then
    if pc.command = tokCreate then scriptCreateB env store pc.params
    else if pc.command = tokList then scriptListB store
    else if pc.command = tokRead then scriptReadB env store pc.params
    else if pc.command = tokDelete then scriptDeleteB env store pc.params
    else (none, store)
  else if agentIdv = ("data-processor").toList then
    if pc.command = tokAnalyze then dataAnalyzeB env store pc.params
    else if pc.command = tokRead then dataReadB env store pc.params
    else (none, store)
  else if agentIdv = ("decision-maker").toList then
    if pc.command = tokSchedule then decisionScheduleB store pc.params
    else (none, store)
  else if agentIdv = ("text-generator").toList then
    if pc.command = tokSearch then textSearchB store pc.params
    else (none, store)
  else (none, store)

/-- Case-sensitive literal match (patterns without the `i` flag). -/
def matchExact : List Char → List Char → Option (List Char)
  | [], l => some l
  | _ :: _, [] => none
  | c :: cs, d :: ds => if d = c then matchExact cs ds else none

/-- One attempt of `/"field"\s*:\s*"([^"]+)"/` at the current position. -/
def quotedFieldAt (field : List Char) (l : List Char) : Option (List Char) :=
  match matchExact ('"' :: (field ++ ['"'])) l with
  | none => none
  | some r =>
    match r.dropWhile isJsWs with
    | ':' :: r2 =>
      (match r2.dropWhile isJsWs with
       | '"' :: r3 =>
         let v := r3.takeWhile (fun c => c ≠ '"')
         if v ≠ [] ∧ r3.drop v.length ≠ [] then some v else none
       | _ => none)
    | _ => none

/-- Leftmost search for `/"field"\s*:\s*"([^"]+)"/`. -/
def scanQuotedField (field : List Char) : Nat → List Char → Option (List Char)
  | 0, _ => none
  | _ + 1, [] => none
  | fuel + 1, l =>
    match quotedFieldAt field l with
    | some v => some v
    | none => scanQuotedField field fuel l.tail

/-- One attempt of `/"contextInfo"\s*:\s*(\{[^}]+\})/` at the current
position, capturing the braced text. -/
def contextFieldAt (l : List Char) : Option (List Char) :=
  match matchExact (('"' :: ("contextInfo").toList) ++ ['"']) l with
  | none => none
  | some r =>
    match r.dropWhile isJsWs with
    | ':' :: r2 =>
      (match r2.dropWhile isJsWs with
       | '{' :: r3 =>
         let v := r3.takeWhile (fun c => c ≠ '}')
         if v ≠ [] ∧ r3.drop v.length ≠ [] then some ('{' :: (v ++ ['}'])) else none
       | _ => none)
    | _ => none

/-- Leftmost search for the `contextInfo` capture. -/
def scanContextField : Nat → List Char → Option (List Char)
  | 0, _ => none
  | _ + 1, [] => none
  | fuel + 1, l =>
    match contextFieldAt l with
    | some v => some v
    | none => scanContextField fuel l.tail

/-- Field access on a parsed JSON object (`undefined` when absent). -/
def objGet (j : Json) (k : List Char) : Option Json :=
  match j with
  | .obj fs => fs.lookup k
  | _ => none

/-- JavaScript truthiness of a parsed JSON value (numeric falsiness is
approximated by the zero lexemes; this corner is exercised by no theorem). -/
def jsonTruthy : Json → Bool
  | .null => false
  | .bool b => b
  | .str s => !s.isEmpty
  | .num lex => !(lex = ['0'] ∨ lex = ['-', '0'])
  | .arr _ => true
  | .obj _ => true

/-- JavaScript `String(v)` for a parsed JSON value, used only in the
unreached corner where the backend returns a non-string `agent` field. -/
def jsDisplayString : Json → List Char
  | .null => ("null").toList
  | .bool true => ("true").toList
  | .bool false => ("false").toList
  | .num lex => lex
  | .str s => s
  | .arr _ => []
  | .obj _ => ("[object Object]").toList

/-- Delegation decision produced per request (`{delegatedAgent, reason,
context?}`); an `undefined` field of the JavaScript object is `none` /
the empty string, which every downstream observation treats identically. -/
structure DelegDecision where
  delegatedAgent : List Char
  reason : List Char
  context : Option Json

/-- Tier 1 of the reply interpretation: strict `JSON.parse` of a reply that
starts with `{` and ends with `}`. -/
def tier1Decision (parsed : Json) : DelegDecision :=
  let reasonV : List Char :=
    match objGet parsed (("reason").toList) with
    | some (.str s) => s
    | _ => []
  let ctxV : Json :=
    match objGet parsed (("contextInfo").toList) with
    | some v => if jsonTruthy v then v else .obj []
    | none => .obj []
  match objGet parsed (("agent").toList) with
  | some .null =>
    { delegatedAgent := [],
      reason := if reasonV = [] then ("The Mother Agent will handle this request directly").toList else reasonV,
      context := some ctxV }
  | some (.str a) =>
    if a = ("mother-agent").toList then
      { delegatedAgent := [],
        reason := if reasonV = [] then ("The Mother Agent will handle this request directly").toList else reasonV,
        context := some ctxV }
    else
      { delegatedAgent := a, reason := reasonV, context := some ctxV }
  | some other => { delegatedAgent := jsDisplayString other, reason := reasonV, context := some ctxV }
  | none => { delegatedAgent := [], reason := reasonV, context := some ctxV }

/-- Tiers 2 and 3: permissive field extraction by regex, then the static
default `{delegatedAgent: '', reason: 'Handling directly as coordination
agent'}` (which carries no `context`). -/
def tier23Decision (c : List Char) : DelegDecision :=
  let ctx : Json :=
    match scanContextField (c.length + 1) c with
    | some captured =>
      (match jsonParse captured with
       | .ok v => v
       | .error _ => .obj [])
    | none => .obj []
  match scanQuotedField (("agent").toList) (c.length + 1) c, scanQuotedField (("reason").toList) (c.length + 1) c with
  | some agent, some reason =>
    if agent = ("mother-agent").toList ∨ agent = ("null").toList then
      { delegatedAgent := [], reason := reason, context := some ctx }
    else
      { delegatedAgent := agent, reason := reason, context := some ctx }
  | _, _ =>
    { delegatedAgent := [], reason := ("Handling directly as coordination agent").toList, context := none }

/-- Interpretation of a successful delegation reply (trimmed content):
strict JSON when brace-delimited, else the regex tier, else the default. -/
def interpretDelegationReply (c : List Char) : DelegDecision :=
  if c.head? = some '{' ∧ c.getLast? = some '}' then
    match jsonParse c with
    | .ok parsed => tier1Decision parsed
    | .error _ => tier23Decision c
  else tier23Decision c

/-- Response of one call to the generative backend: `err` is any non-2xx
response, `ok` carries `data.choices[0].message.content`. -/
inductive ChatResult where
  | err : ChatResult
  | ok : List Char → ChatResult

/-- Response of one inter-handler HTTP call to the execute route. -/
inductive ExecResult where
  | err : ExecResult
  | ok : List Char → ExecResult

/-- External collaborators of the coordinator: the configured API key and
the two network oracles, indexed by call sequence number.  The prompt
texts (capability listing, bounded history window, raw command) are passed
to the opaque services and never observed by the coordinator logic, so the
oracles are indexed rather than keyed by request text. -/
structure CoordEnv where
  apiKeyConfigured : Bool
  chat : Nat → ChatResult
  exec : Nat → ExecResult

/-- Static command→agent table of `determineAppropriateAgent`
(`list` maps to the empty string: the mother agent handles it). -/
def commandAgentMap : List (List Char × List Char) :=
  [(tokCreate, ("script-launcher").toList),
   (tokAnalyze, ("data-processor").toList),
   (tokSearch, ("text-generator").toList),
   (tokList, []),
   (tokSchedule, ("decision-maker").toList)]

/-- Truthy direct mapping: `const suggestedAgent =
commandAgentMap[commandType]; if (suggestedAgent) …`. -/
def directMapped (parsed : Option ParsedCommand) : Option (List Char) :=
  match parsed with
  | none => none
  | some p =>
    match commandAgentMap.lookup p.command with
    | some s => if s = [] then none else some s
    | none => none

/-- JSON rendering of a parsed command (the direct-mapping branch embeds it
into the extracted context). -/
def parsedToJson (p : ParsedCommand) : Json :=
  .obj [(("command").toList, .str p.command),
        (("params").toList, .obj (p.params.map fun q => (q.1, Json.str q.2)))]

/-- Embedding of `determineAppropriateAgent` of the coordinator route:
direct mapping first (no backend call), otherwise one call to the chat
oracle at index `nChat`; a non-2xx reply yields the API-error decision,
a 2xx reply is trimmed and interpreted by the three tiers.  Returns the
decision and the number of chat calls made.  The surrounding `try/catch`
(`'Error occurred, handling directly'`) is unreachable in this total
model. -/
def determineAppropriateAgent (env : CoordEnv) (nChat : Nat) (parsed : Option ParsedCommand) : DelegDecision × Nat :=
  match directMapped parsed with
  | some suggested =>
    ({ delegatedAgent := suggested,
       reason := ("Command '").toList ++ (match parsed with | some p => p.command | none => []) ++
         ("' is best handled by this specialized agent").toList,
       context := some (.obj [(("parsedCommand").toList, (match parsed with | some p => parsedToJson p | none => .null)),
                              (("commandType").toList, .str (match parsed with | some p => p.command | none => [])),
                              (("params").toList, (match parsed with | some p => .obj (p.params.map fun q => (q.1, Json.str q.2)) | none => .null))]) }, 0)
  | none =>
    match env.chat nChat with
    | .err =>
      ({ delegatedAgent := [], reason := ("Failed to determine appropriate agent due to API error").toList, context := none }, 1)
    | .ok content => (interpretDelegationReply (jsTrim content), 1)

/-- Embedding of `getMotherAgentResponse`: one chat call; non-2xx yields
the apology text, 2xx yields the trimmed content. -/
def getMotherAgentResponse (env : CoordEnv) (nChat : Nat) : List Char × Nat :=
  match env.chat nChat with
  | .err => (("I apologize, but I encountered an error while processing your request. Please try again later.").toList, 1)
  | .ok content => (jsTrim content, 1)

/-- The id `mother-agent`. -/
def motherAgentId : List Char := ("mother-agent").toList

/-- Call-state threaded through the coordinator: next oracle indices and
the conversation store (timestamps are not modelled and recorded as 0). -/
structure CallState where
  chat : Nat
  exec : Nat
  mem : MemStore

/-- Embedding of `getAgentResponse` of the coordinator route: the empty id
or the mother id answer directly; otherwise the command is remembered, an
unknown id returns the not-found message, a known id calls the execute
oracle and on error falls back to a direct answer with the apology
prefix. -/
def getAgentResponse (env : CoordEnv) (st : CallState) (agentIdv command : List Char) : List Char × CallState :=
  if agentIdv = [] ∨ agentIdv = motherAgentId then
    let (resp, n) := getMotherAgentResponse env st.chat
    (resp, { st with chat := st.chat + n })
  else
    let st := { st with mem := addToMemory 0 st.mem agentIdv ⟨.user, command, none⟩ }
    if !(agentIds.contains agentIdv) then
      (("I couldn't find an agent with ID \"").toList ++ agentIdv ++
        ("\". Let me answer your query directly instead.").toList, st)
    else
      match env.exec st.exec with
      | .ok resp =>
        ( resp,
          { st with exec := st.exec + 1, mem := addToMemory 0 st.mem agentIdv ⟨.agent, resp, none⟩ })
      | .err =>
        let st := { st with exec := st.exec + 1 }
        let (fallback, n) := getMotherAgentResponse env st.chat
        (("I tried to get a response from the ").toList ++ agentIdv ++
          (" agent, but encountered an error. Let me answer directly instead.\n\n").toList ++ fallback,
         { st with chat := st.chat + n })

/-- Transcription of `getCommandHelp` of `src/utils/commandParser.ts`. -/
def getCommandHelp : List Char :=
  ("\n## Available Commands\n\n### File Operations\n- `create file [name] with content: [content]` - Create a new file with the specified content\n- `create [type] [name] with content: [content]` - Create a document, script, etc.\n- `list files` - Show all your saved files\n- `read [filename]` - Display the contents of a file\n- `delete [filename]` - Remove a file\n\n### Data Processing\n- `analyze json: [json-content]` - Parse and analyze JSON data\n- `analyze file [filename]` - Analyze the contents of a file\n- `analyze [type]: [content]` - Examine data of different types\n\n### Information Retrieval\n- `search for [query]` - Search for information about a topic\n- `search [query] in [source]` - Search in a specific source\n\n### Task Management\n- `schedule meeting [description] for [time]` - Create a calendar event\n- `schedule [type] [description] for [time]` - Plan different types of activities\n\n### Help\n- `help with commands` - Show this help message\n- `list commands` - Show available commands\n\nYou can also use natural language to execute these commands, and I'll do my best to understand your intent.").toList

/-- First literal help pattern of the coordinator route:
`/^(?:show|list|get)?\s*commands(?:\s+help)?$/i`, applied to the raw
(untrimmed) command.  The `\s*` is maximal since shrinking it exposes
whitespace, which "commands" does not start with. -/
def helpRegexA (l : List Char) : Bool :=
  [tokShow, tokList, tokGet, ([] : List Char)].any fun p =>
    match matchLit p l with
    | none => false
    | some r1 =>
      match matchLit tokCommands (r1.dropWhile isJsWs) with
      | none => false
      | some r3 =>
        r3.isEmpty ||
          (match ws1 r3 with
           | some r4 => (match matchLit tokHelp r4 with | some [] => true | _ => false)
           | none => false)

/-- Second literal help pattern of the coordinator route:
`/^help(?:\s+with)?\s+commands$/i`. -/
def helpRegexB (l : List Char) : Bool :=
  match matchLit tokHelp l with
  | none => false
  | some r =>
    (match (wsThen tokWith r).bind (wsThen tokCommands) with
     | some [] => true
     | _ => false) ||
    (match wsThen tokCommands r with
     | some [] => true
     | _ => false)

/-- Response of the coordinator `POST` (the observed fields; the echoed
`command`, `parsedCommand`, `context` and the timing metrics are not
modelled). -/
structure PostResponse where
  status : Nat
  error : Option (List Char)
  delegatedAgent : List Char
  reason : List Char
  response : List Char
deriving DecidableEq

/-- Outcome of one coordinator request: the response, the number of calls
made to each oracle and the final conversation store. -/
structure PostOutcome where
  resp : PostResponse
  chatCalls : Nat
  execCalls : Nat
  mem : MemStore

/-- Embedding of the mother-agent `POST` handler: missing/empty command →
400; the two literal help patterns → the static help payload; missing API
key → 500; otherwise detect, delegate, respond, and append the exchange to
the conversation store.  Metrics events and console logging are pure
observers and are omitted. -/
def motherAgentPOST (env : CoordEnv) (mem0 : MemStore) (command : List Char) : PostOutcome :=
  if command = [] then
    { resp := { status := 400, error := some (("Missing required field: command is required").toList),
                delegatedAgent := [], reason := [], response := [] },
      chatCalls := 0, execCalls := 0, mem := mem0 }
  else if helpRegexA command || helpRegexB command then
    { resp := { status := 200, error := none, delegatedAgent := [],
                reason := ("Providing command help").toList,
                response := ("Here are the commands you can use with our agents:\n").toList ++ getCommandHelp },
      chatCalls := 0, execCalls := 0, mem := mem0 }
  else
    let parsedCommand := detectCommand command
    if !env.apiKeyConfigured then
      { resp := { status := 500, error := some (("OpenAI API key is not configured. Please check your .env.local file.").toList),
                  delegatedAgent := [], reason := [], response := [] },
        chatCalls := 0, execCalls := 0, mem := mem0 }
    else
      let mem1 := addToMemory 0 mem0 motherAgentId ⟨.user, command, none⟩
      let (decision, dChat) := determineAppropriateAgent env 0 parsedCommand
      let st0 : CallState := { chat := dChat, exec := 0, mem := mem1 }
      let (response, st1) := getAgentResponse env st0 decision.delegatedAgent command
      let mem2 := addToMemory 0 st1.mem motherAgentId
        ⟨.agent, response, if decision.delegatedAgent = [] then none else some decision.delegatedAgent⟩
      { resp := { status := 200, error := none, delegatedAgent := decision.delegatedAgent,
                  reason := decision.reason, response := response },
        chatCalls := st1.chat, execCalls := st1.exec, mem := mem2 }

/-! ## Shared concrete environments for the closed instances -/

/-- Backend environment whose oracles always answer with a non-2xx error. -/
def envAllErr : CoordEnv :=
  { apiKeyConfigured := true, chat := fun _ => .err, exec := fun _ => .err }

/-- Concrete file-store environment with a stub digest oracle. -/
def fsEnvStub : FsEnv :=
  { cwd := [("app").toList], now := ("0").toList, md5hex := fun _ => List.replicate 32 'a' }

/-- Substring occurrence test used in the statements below. -/
def hasSub (pat l : List Char) : Bool :=
  (List.range (l.length + 1)).any fun i => pat.isPrefixOf (l.drop i)

/-- Outcome of the C7 scenario: detection and data-processor dispatch of
the command `analyze json: {"a":1,"b":2}`. -/
def analyzeScenarioOpt : Option (List Char) :=
  (detectCommand (("analyze json: \x7b\"a\":1,\"b\":2\x7d").toList)).bind
    (fun pc => (handleSpecializedCommand fsEnvStub [] (("data-processor").toList) pc).1)

/-- The scenario message (empty if the pipeline failed). -/
def analyzeScenarioMsg : List Char := analyzeScenarioOpt.getD []

/-- Fallback branch of `detectCommand`: the free-form extraction with the
truthy `command` key split off. -/
def fallbackExtract (message : List Char) : Option ParsedCommand :=
  match (extractParameters message).lookup kCommand with
  | some cmd => if cmd = [] then none else some ⟨cmd, delParam (extractParameters message) kCommand⟩
  | none => none

/-- The token `tok` matches case-insensitively at the head of `t`. -/
def ciPre (tok t : List Char) : Prop := ∃ r, matchLit tok t = some r

/-- Case-insensitive prefix order between tokens. -/
def lowPre (a b : List Char) : Bool := (lowerList a).isPrefixOf (lowerList b)

/-- The continuation of the create rule after the optional `called`/`named`
group: mandatory whitespace, greedy name capture, then the content tail. -/
def createNameTail (ty : List Char) : List Char → Option ParsedCommand :=
  fun r => (ws1 r).bind fun r =>
    classPlus isFileClass (fun nm rest =>
      (createAfterName rest).map fun content =>
        ⟨tokCreate, [(kType, ty), (kName, nm), (kContent, content)]⟩) r

/-- The stub digest oracle is well-formed. -/
lemma fsEnvStub_md5wf : Md5Wf fsEnvStub := by
  intro s
  refine ⟨by simp [fsEnvStub], ?_⟩
  intro c hc
  have hc' : c ∈ List.replicate 32 'a' := hc
  have : c = 'a' := List.eq_of_mem_replicate hc'
  subst this
  right
  exact ⟨le_refl _, by decide⟩

/-- Reflexivity of `isPrefixOf`. -/
lemma isPrefixOf_append (p r : List Char) : p.isPrefixOf (p ++ r) = true := by
  induction p with
  | nil => simp [List.isPrefixOf]
  | cons c cs ih => simp [List.isPrefixOf, ih]

/-- Reflexivity of `isPrefixOf`. -/
lemma isPrefixOf_self (l : List Char) : l.isPrefixOf l = true := by
  have h := isPrefixOf_append l []
  simpa using h

/-- A pattern occurs in any list that contains it contiguously. -/
lemma hasSub_of_parts (pat x y : List Char) : hasSub pat (x ++ (pat ++ y)) = true := by
  unfold hasSub
  rw [List.any_eq_true]
  refine ⟨x.length, List.mem_range.mpr ?_, ?_⟩
  · have hx : x.length ≤ (x ++ (pat ++ y)).length := by
      simp only [List.length_append]
      omega
    omega
  · rw [List.drop_left]
    exact isPrefixOf_append pat y

/-! ## C2 -/

/-- C2: the sanitizer does not confine all accesses to the safe directory.
Removing the `".."` pairs happens before the slash removal, so the filename
`"./."` sanitizes to `".."`, and `path.join(SAFE_DIR, "..")` resolves to
the parent of the safe directory — `readFile`/`deleteFile` then access a
path outside it.  (The 1 MiB half of the claim does hold; the traversal
half is the slip.) -/
theorem sanitize_traversal_bug :
    sanitizeFilename (("./.").toList) = ("..").toList ∧
    joinedComponents [("app").toList] (sanitizeFilename (("./.").toList)) = [("app").toList] ∧
    (safeDirComponents [("app").toList]).isPrefixOf
      (joinedComponents [("app").toList] (sanitizeFilename (("./.").toList))) = false := by
  decide

/-! ## C4 -/

/-- C4: every structured command with commandType "analyze" is delegated to
the data-processor via the static command→agent table, with no call to the
generative backend (the returned call count is zero). -/
theorem analyze_direct_mapping (env : CoordEnv) (nChat : Nat) (p : ParsedCommand)
    (h : p.command = tokAnalyze) :
    (determineAppropriateAgent env nChat (some p)).1.delegatedAgent = ("data-processor").toList ∧
    (determineAppropriateAgent env nChat (some p)).2 = 0 ∧
    commandAgentMap.lookup p.command = some (("data-processor").toList) := by
  have hd : directMapped (some p) = some (("data-processor").toList) := by
    simp only [directMapped, h]
    decide
  have hl : commandAgentMap.lookup p.command = some (("data-processor").toList) := by
    rw [h]; decide
  unfold determineAppropriateAgent
  rw [hd]
  exact ⟨rfl, rfl, hl⟩

/-- Closed instance of `analyze_direct_mapping`. -/
theorem analyze_direct_mapping_witness :
    (determineAppropriateAgent envAllErr 0 (some ⟨tokAnalyze, []⟩)).1.delegatedAgent = ("data-processor").toList ∧
    (determineAppropriateAgent envAllErr 0 (some ⟨tokAnalyze, []⟩)).2 = 0 ∧
    commandAgentMap.lookup (ParsedCommand.mk tokAnalyze []).command = some (("data-processor").toList) :=
  analyze_direct_mapping envAllErr 0 ⟨tokAnalyze, []⟩ rfl

/-! ## C1 -/

/-- C1 (counterexample): the trimmed, lower-cased command "help" is one of
the four help synonyms, yet the coordinator does not return the static help
payload: neither literal pattern of the route matches the bare "help", so
the request goes through delegation (two backend calls with the erroring
oracle) and the reason is the API-error fallback, not "Providing command
help". -/
theorem bare_help_not_shortcircuited :
    lowerList (jsTrim (("help").toList)) = tokHelp ∧
    helpRegexA (("help").toList) = false ∧
    helpRegexB (("help").toList) = false ∧
    (motherAgentPOST envAllErr emptyMemStore (("help").toList)).resp.reason =
      ("Failed to determine appropriate agent due to API error").toList ∧
    (motherAgentPOST envAllErr emptyMemStore (("help").toList)).resp.reason ≠
      ("Providing command help").toList ∧
    (motherAgentPOST envAllErr emptyMemStore (("help").toList)).chatCalls = 2 := by
  decide

/-- C1 (amended): every request whose raw command text matches one of the
coordinator's two literal help patterns — `^(show|list|get)?\s*commands(\s+help)?$`
or `^help(\s+with)?\s+commands$`, case-insensitively — returns the static
help payload with `delegatedAgent = ""` and reason "Providing command
help", with no delegation, no dispatch, no backend call and no memory
write. -/
theorem literal_help_shortcircuit (env : CoordEnv) (mem : MemStore) (command : List Char)
    (h : (helpRegexA command || helpRegexB command) = true) :
    motherAgentPOST env mem command =
      { resp := { status := 200, error := none, delegatedAgent := [],
                  reason := ("Providing command help").toList,
                  response := ("Here are the commands you can use with our agents:\n").toList ++ getCommandHelp },
        chatCalls := 0, execCalls := 0, mem := mem } := by
  have hne : command ≠ [] := by
    intro e
    subst e
    exact absurd h (by decide)
  unfold motherAgentPOST
  rw [if_neg hne, if_pos h]

/-- Closed instance of `literal_help_shortcircuit` at "show commands". -/
theorem literal_help_shortcircuit_witness :
    motherAgentPOST envAllErr emptyMemStore (("show commands").toList) =
      { resp := { status := 200, error := none, delegatedAgent := [],
                  reason := ("Providing command help").toList,
                  response := ("Here are the commands you can use with our agents:\n").toList ++ getCommandHelp },
        chatCalls := 0, execCalls := 0, mem := emptyMemStore } :=
  literal_help_shortcircuit envAllErr emptyMemStore (("show commands").toList) (by decide)

/-! ## C5 -/

/-- C5: a non-2xx backend reply during the delegation call never throws:
`determineAppropriateAgent` returns `delegatedAgent = ""` with the
API-error reason, and the whole request still produces a 200 response
(the direct answer path, which with a failing backend is the apology
text). -/
theorem delegation_api_error_resilience :
    (∀ (env : CoordEnv) (n : Nat) (parsed : Option ParsedCommand),
      env.chat n = .err → directMapped parsed = none →
      determineAppropriateAgent env n parsed =
        ({ delegatedAgent := [],
           reason := ("Failed to determine appropriate agent due to API error").toList,
           context := none }, 1)) ∧
    (∀ (env : CoordEnv) (mem : MemStore) (command : List Char),
      (∀ k, env.chat k = .err) → env.apiKeyConfigured = true → command ≠ [] →
      helpRegexA command = false → helpRegexB command = false →
      directMapped (detectCommand command) = none →
      (motherAgentPOST env mem command).resp.status = 200 ∧
      (motherAgentPOST env mem command).resp.delegatedAgent = [] ∧
      (motherAgentPOST env mem command).resp.reason =
        ("Failed to determine appropriate agent due to API error").toList ∧
      (motherAgentPOST env mem command).resp.response =
        ("I apologize, but I encountered an error while processing your request. Please try again later.").toList) := by
  have key : ∀ (env : CoordEnv) (n : Nat) (parsed : Option ParsedCommand),
      env.chat n = .err → directMapped parsed = none →
      determineAppropriateAgent env n parsed =
        ({ delegatedAgent := [],
           reason := ("Failed to determine appropriate agent due to API error").toList,
           context := none }, 1) := by
    intro env n parsed hchat hdm
    unfold determineAppropriateAgent
    rw [hdm, hchat]
  refine ⟨key, ?_⟩
  intro env mem command hchat hkey hne hA hB hdm
  have hHelp : (helpRegexA command || helpRegexB command) = false := by
    rw [hA, hB]; rfl
  have hd := key env 0 (detectCommand command) (hchat 0) hdm
  unfold motherAgentPOST
  rw [if_neg hne]
  rw [hHelp]
  simp only [Bool.false_eq_true, if_false, hkey, Bool.not_true, hd,
    getAgentResponse, getMotherAgentResponse, hchat 1]
  simp [hchat 1]

/-- Closed instance of `delegation_api_error_resilience` at the command
"hello" (no structured match, so the delegation call is made and errors). -/
theorem delegation_api_error_resilience_witness :
    (motherAgentPOST envAllErr emptyMemStore (("hello").toList)).resp.status = 200 ∧
    (motherAgentPOST envAllErr emptyMemStore (("hello").toList)).resp.delegatedAgent = [] ∧
    (motherAgentPOST envAllErr emptyMemStore (("hello").toList)).resp.reason =
      ("Failed to determine appropriate agent due to API error").toList ∧
    (motherAgentPOST envAllErr emptyMemStore (("hello").toList)).resp.response =
      ("I apologize, but I encountered an error while processing your request. Please try again later.").toList :=
  delegation_api_error_resilience.2 envAllErr emptyMemStore (("hello").toList)
    (fun _ => rfl) rfl (by decide) (by decide) (by decide) (by decide)

/-! ## C9 -/

/-- The cap keeps the last appended item. -/
lemma cap100_last1 (p : List ConversationItem) (x : ConversationItem) :
    ∃ q, cap100 (p ++ [x]) = q ++ [x] := by
  unfold cap100
  by_cases h : (p ++ [x]).length > 100
  · rw [if_pos h]
    have hk : (p ++ [x]).length - 100 ≤ p.length := by
      simp only [List.length_append, List.length_cons, List.length_nil] at h ⊢
      omega
    exact ⟨p.drop ((p ++ [x]).length - 100), List.drop_append_of_le_length hk⟩
  · exact ⟨p, by rw [if_neg h]⟩

/-- The cap keeps the last two appended items. -/
lemma cap100_last2 (p : List ConversationItem) (x y : ConversationItem) :
    ∃ q, cap100 (p ++ [x, y]) = q ++ [x, y] := by
  unfold cap100
  by_cases h : (p ++ [x, y]).length > 100
  · rw [if_pos h]
    have hk : (p ++ [x, y]).length - 100 ≤ p.length := by
      simp only [List.length_append, List.length_cons, List.length_nil] at h ⊢
      omega
    exact ⟨p.drop ((p ++ [x, y]).length - 100), List.drop_append_of_le_length hk⟩
  · exact ⟨p, by rw [if_neg h]⟩

/-- Looking up the key just written by `addToMemory`. -/
lemma addToMemory_lookup (n : Nat) (store : MemStore) (key : List Char) (item : MemItemIn) :
    (addToMemory n store key item) key =
      some { agentId := key,
             conversations := cap100 ((match store key with
               | some m => m.conversations
               | none => []) ++ [⟨item.role, item.content, n, item.agentId⟩]),
             lastUpdated := n } := by
  unfold addToMemory
  cases store key <;> simp

/-- C9: appending a user entry and then a handler entry for the same key
and reading the history back with limit at least two yields both entries,
as the final two items, in order, with roles, contents, timestamps and
handler ids preserved — whatever the previous state of the store and
however the 100-item cap trims the front. -/
theorem memory_roundtrip (store : MemStore) (key u a : List Char) (aid : Option (List Char))
    (n1 n2 : Nat) (limit : Nat) (h2 : 2 ≤ limit) :
    ∃ pre,
      getMemory (addToMemory n2 (addToMemory n1 store key ⟨.user, u, none⟩) key ⟨.agent, a, aid⟩) key limit
        = pre ++ [⟨.user, u, n1, none⟩, ⟨.agent, a, n2, aid⟩] := by
  obtain ⟨c1, hc1⟩ :=
    cap100_last1 ((match store key with | some m => m.conversations | none => []))
      ⟨.user, u, n1, none⟩
  have h1 := addToMemory_lookup n1 store key ⟨.user, u, none⟩
  rw [hc1] at h1
  obtain ⟨c2, hc2⟩ := cap100_last2 c1 ⟨.user, u, n1, none⟩ ⟨.agent, a, n2, aid⟩
  have h2' := addToMemory_lookup n2 (addToMemory n1 store key ⟨.user, u, none⟩) key ⟨.agent, a, aid⟩
  rw [h1] at h2'
  simp only [List.append_assoc, List.singleton_append] at h2'
  rw [hc2] at h2'
  have hlim : ¬ (limit = 0) := by omega
  simp only [getMemory, h2']
  rw [if_neg hlim]
  refine ⟨c2.drop ((c2 ++ [(⟨.user, u, n1, none⟩ : ConversationItem), ⟨.agent, a, n2, aid⟩]).length - limit), ?_⟩
  have hk : (c2 ++ [(⟨.user, u, n1, none⟩ : ConversationItem), ⟨.agent, a, n2, aid⟩]).length - limit ≤ c2.length := by
    simp only [List.length_append, List.length_cons, List.length_nil]
    omega
  exact List.drop_append_of_le_length hk

/-- Closed instance of `memory_roundtrip` on the empty store. -/
theorem memory_roundtrip_witness :
    ∃ pre,
      getMemory (addToMemory 1 (addToMemory 0 emptyMemStore (("k").toList) ⟨.user, ("hi").toList, none⟩)
          (("k").toList) ⟨.agent, ("yo").toList, some (("h").toList)⟩) (("k").toList) 10
        = pre ++ [⟨.user, ("hi").toList, 0, none⟩, ⟨.agent, ("yo").toList, 1, some (("h").toList)⟩] :=
  memory_roundtrip emptyMemStore (("k").toList) (("hi").toList) (("yo").toList) (some (("h").toList)) 0 1 10 (by omega)

/-! ## C10 -/

/-- Characters of the scanner output come from the input (or are the
pending dot). -/
lemma rddAux_subset {c : Char} : ∀ (l : List Char) (p : Bool),
    c ∈ rddAux p l → c ∈ l ∨ c = '.' := by
  intro l
  induction l with
  | nil =>
    intro p h
    cases p with
    | false => exact absurd h (by simp [rddAux])
    | true => right; simpa [rddAux] using h
  | cons d rest ih =>
    intro p h
    cases p with
    | false =>
      by_cases hd : d = '.'
      · simp only [rddAux, if_pos hd] at h
        rcases ih true h with h1 | h2
        · exact Or.inl (List.mem_cons_of_mem _ h1)
        · exact Or.inr h2
      · simp only [rddAux, if_neg hd] at h
        rcases List.mem_cons.mp h with h1 | h2
        · exact Or.inl (h1 ▸ List.mem_cons_self _ _)
        · rcases ih false h2 with h3 | h4
          · exact Or.inl (List.mem_cons_of_mem _ h3)
          · exact Or.inr h4
    | true =>
      by_cases hd : d = '.'
      · simp only [rddAux, if_pos hd] at h
        rcases ih false h with h1 | h2
        · exact Or.inl (List.mem_cons_of_mem _ h1)
        · exact Or.inr h2
      · simp only [rddAux, if_neg hd] at h
        rcases List.mem_cons.mp h with h1 | h2
        · exact Or.inr h1
        · rcases List.mem_cons.mp h2 with h3 | h4
          · exact Or.inl (h3 ▸ List.mem_cons_self _ _)
          · rcases ih false h4 with h5 | h6
            · exact Or.inl (List.mem_cons_of_mem _ h5)
            · exact Or.inr h6

/-- A non-dot character of the input survives the scanner. -/
lemma rddAux_mem {c : Char} (hc : c ≠ '.') : ∀ (l : List Char) (p : Bool),
    c ∈ l → c ∈ rddAux p l := by
  intro l
  induction l with
  | nil => intro p h; exact absurd h (List.not_mem_nil c)
  | cons d rest ih =>
    intro p h
    rcases List.mem_cons.mp h with h1 | h2
    · subst h1
      cases p with
      | false => simp only [rddAux, if_neg hc]; exact List.mem_cons_self _ _
      | true =>
        simp only [rddAux, if_neg hc]
        exact List.mem_cons_of_mem _ (List.mem_cons_self _ _)
    · cases p with
      | false =>
        by_cases hd : d = '.'
        · simp only [rddAux, if_pos hd]; exact ih true h2
        · simp only [rddAux, if_neg hd]; exact List.mem_cons_of_mem _ (ih false h2)
      | true =>
        by_cases hd : d = '.'
        · simp only [rddAux, if_pos hd]; exact ih false h2
        · simp only [rddAux, if_neg hd]
          exact List.mem_cons_of_mem _ (List.mem_cons_of_mem _ (ih false h2))

/-- The scanner removes characters in pairs: output length has the parity
of the input length (plus the pending dot). -/
lemma rddAux_parity : ∀ (l : List Char),
    (rddAux false l).length % 2 = l.length % 2 ∧
    (rddAux true l).length % 2 = (l.length + 1) % 2 := by
  intro l
  induction l with
  | nil => exact ⟨by simp [rddAux], by simp [rddAux]⟩
  | cons d rest ih =>
    obtain ⟨hf, ht⟩ := ih
    constructor
    · by_cases hd : d = '.'
      · simp only [rddAux, if_pos hd, List.length_cons]
        omega
      · simp only [rddAux, if_neg hd, List.length_cons]
        omega
    · by_cases hd : d = '.'
      · simp only [rddAux, if_pos hd, List.length_cons]
        omega
      · simp only [rddAux, if_neg hd, List.length_cons]
        omega

/-- Characters of `removeDotDot l` come from `l`. -/
lemma removeDotDot_subset {c : Char} {l : List Char} (h : c ∈ removeDotDot l) (hc : c ≠ '.') :
    c ∈ l := by
  rcases rddAux_subset l false h with h1 | h2
  · exact h1
  · exact absurd h2 hc

/-- A non-dot character survives `removeDotDot`. -/
lemma removeDotDot_mem {c : Char} (hc : c ≠ '.') {l : List Char} (h : c ∈ l) :
    c ∈ removeDotDot l :=
  rddAux_mem hc l false h

/-- Parity preservation of `removeDotDot`. -/
lemma removeDotDot_parity (l : List Char) :
    (removeDotDot l).length % 2 = l.length % 2 :=
  (rddAux_parity l).1

/-- Every character of a sanitized filename is in the filename class. -/
lemma sanitizeFilename_class (l : List Char) : ∀ c ∈ sanitizeFilename l, isFileClass c = true := by
  intro c hc
  unfold sanitizeFilename at hc
  by_cases h : sanitizeCore l = []
  · rw [if_pos h] at hc
    exact (by decide : ∀ c ∈ ("unnamed_file").toList, isFileClass c = true) c hc
  · rw [if_neg h] at hc
    unfold sanitizeCore at hc
    obtain ⟨d, _, hmap⟩ := List.mem_map.mp hc
    by_cases hdc : isFileClass d
    · rw [if_pos hdc] at hmap; exact hmap ▸ hdc
    · rw [if_neg hdc] at hmap; rw [← hmap]; decide

/-- A filename-class character is not a path separator. -/
lemma fileClass_not_slash (c : Char) (h : isFileClass c = true) :
    (!(c == '/' || c == '\\')) = true := by
  by_cases h1 : c = '/'
  · subst h1; exact absurd h (by decide)
  · by_cases h2 : c = '\\'
    · subst h2; exact absurd h (by decide)
    · simp [h1, h2]

/-- Mapping with a function that fixes every element is the identity. -/
lemma map_id_of {α : Type} (l : List α) (f : α → α) (h : ∀ c ∈ l, f c = c) : l.map f = l := by
  induction l with
  | nil => rfl
  | cons x xs ih =>
    simp only [List.map_cons, h x (List.mem_cons_self x xs),
      ih (fun c hc => h c (List.mem_cons_of_mem _ hc))]

/-- Splitting a name at its extension and re-appending restores the name. -/
lemma basename_append_extname (s : List Char) :
    nodeBasenameNoExt s ++ nodeExtname s = s := by
  unfold nodeBasenameNoExt nodeExtname
  cases h : lastDotIdx s with
  | none => simp
  | some i =>
    cases i with
    | zero => simp
    | succ j =>
      by_cases hs : s = ['.', '.']
      · simp [hs]
      · simp only [hs, if_false]
        exact List.take_append_drop _ s

/-- Updating one key of the store leaves the lookups of other keys
unchanged. -/
lemma lookup_setParam_ne (s : FsStore) (k k' v : List Char) (h : ¬ (k = k')) :
    (setParam s k' v).lookup k = s.lookup k := by
  have hbeq : (k == k') = false := beq_eq_false_iff_ne.mpr h
  induction s with
  | nil => simp [setParam, List.lookup, hbeq]
  | cons p rest ih =>
    cases p with
    | mk pk pv =>
      by_cases hp : pk = k'
      · subst hp
        simp only [setParam, if_pos rfl]
        simp [List.lookup, hbeq]
      · simp only [setParam, if_neg hp]
        by_cases hk : k = pk
        · subst hk
          simp [List.lookup]
        · have hbk : (k == pk) = false := beq_eq_false_iff_ne.mpr hk
          simp [List.lookup, hbk, ih]

/-- Core inequality behind C10: the generated unique name is nine characters
longer than the sanitized name — and can never equal the originally
requested name, because sanitization shrinks a slash-free name only by
removing dot pairs, an even number of characters, while the generated name
is exactly nine characters longer than what it sanitizes to. -/
lemma generated_name_ne (env : FsEnv) (content r : List Char) (hwf : Md5Wf env) :
    generateUniqueFilename env (sanitizeFilename r) content ≠ r ∧
    sanitizeFilename r ≠ generateUniqueFilename env (sanitizeFilename r) content := by
  set S := sanitizeFilename r with hSdef
  set W := generateUniqueFilename env S content with hWdef
  have hbe : nodeBasenameNoExt S ++ nodeExtname S = S := basename_append_extname S
  have hlen8 : ((env.md5hex (content ++ env.now)).take 8).length = 8 := by
    rw [List.length_take, (hwf (content ++ env.now)).1]
    decide
  have hWlen : W.length = S.length + 9 := by
    have hbl := congrArg List.length hbe
    rw [List.length_append] at hbl
    rw [hWdef]
    unfold generateUniqueFilename
    simp only [List.length_append, List.length_cons, hlen8]
    omega
  have hSW : S ≠ W := by
    intro h
    rw [← h] at hWlen
    omega
  have hclass : ∀ c ∈ W, isFileClass c = true := by
    intro c hc
    rw [hWdef] at hc
    unfold generateUniqueFilename at hc
    rcases List.mem_append.mp hc with hb | hr
    · apply sanitizeFilename_class r c
      show c ∈ S
      rw [← hbe]
      exact List.mem_append_left (nodeExtname S) hb
    · rcases List.mem_cons.mp hr with h1 | h2
      · rw [h1]; decide
      · rcases List.mem_append.mp h2 with h3 | h4
        · have h5 : c ∈ env.md5hex (content ++ env.now) := List.take_subset _ _ h3
          rcases (hwf (content ++ env.now)).2 c h5 with hd | hfz
          · simp [isFileClass, hd]
          · have hlow : c.isLower = true := by
              unfold Char.isLower
              rw [Bool.and_eq_true]
              exact ⟨decide_eq_true hfz.1, decide_eq_true (le_trans hfz.2 (show ('f' : Char) ≤ 'z' by decide))⟩
            simp [isFileClass, Char.isAlpha, hlow]
        · apply sanitizeFilename_class r c
          show c ∈ S
          rw [← hbe]
          exact List.mem_append_right (nodeBasenameNoExt S) h4
  have hus : '_' ∈ W := by
    rw [hWdef]
    unfold generateUniqueFilename
    exact List.mem_append_right _ (List.mem_cons_self _ _)
  set D := removeDotDot W with hDdef
  have hDclass : ∀ c ∈ D, isFileClass c = true := by
    intro c hc
    by_cases hdot : c = '.'
    · subst hdot; decide
    · exact hclass c (removeDotDot_subset hc hdot)
  have hfil : D.filter (fun c => !(c == '/' || c == '\\')) = D :=
    List.filter_eq_self.mpr (fun c hc => fileClass_not_slash c (hDclass c hc))
  have hmap : D.map (fun c => if isFileClass c then c else '_') = D :=
    map_id_of D _ (fun c hc => if_pos (hDclass c hc))
  have hcoreW : sanitizeCore W = D := by
    unfold sanitizeCore
    rw [← hDdef, hfil, hmap]
  have hDne : ¬ (D = []) := by
    intro h
    have h2 : '_' ∈ D := hDdef ▸ removeDotDot_mem (by decide) hus
    rw [h] at h2
    exact List.not_mem_nil _ h2
  have hWr : W ≠ r := by
    intro h
    have hS2 : S = D := by
      rw [hSdef, ← h]
      unfold sanitizeFilename
      rw [hcoreW, if_neg hDne]
    have hpar : D.length % 2 = W.length % 2 := hDdef ▸ removeDotDot_parity W
    rw [← hS2, hWlen] at hpar
    omega
  exact ⟨hWr, hSW⟩

/-- C10: every successful save writes the content under the freshly
generated name `base_hhhhhhhh.ext` (the sanitized name split at its
extension, with an eight-hex-character digest of content and clock
inserted); that stored name never equals the name the caller requested,
and a subsequent read of the requested name resolves to a different key,
whose binding the save left untouched. -/
theorem unique_name_never_requested (env : FsEnv) (store : FsStore) (r content : List Char)
    (hwf : Md5Wf env) (hs : (saveFile env store r content).1.success = true) :
    (saveFile env store r content).2 =
      setParam store (generateUniqueFilename env (sanitizeFilename r) content) content ∧
    generateUniqueFilename env (sanitizeFilename r) content ≠ r ∧
    sanitizeFilename r ≠ generateUniqueFilename env (sanitizeFilename r) content ∧
    (saveFile env store r content).2.lookup (sanitizeFilename r) = store.lookup (sanitizeFilename r) := by
  obtain ⟨hWr, hSW⟩ := generated_name_ne env content r hwf
  by_cases h1 : r = []
  · simp only [saveFile, if_pos h1] at hs
    exact absurd hs (by decide)
  · by_cases h2 : isAllowedFileType (sanitizeFilename r) = true
    · by_cases h3 : validateFileContent content = true
      · have hsave : saveFile env store r content =
            ({ success := true,
               message := ("File ").toList ++ generateUniqueFilename env (sanitizeFilename r) content ++ (" created successfully").toList,
               path := some (renderAbs (joinedComponents env.cwd (generateUniqueFilename env (sanitizeFilename r) content))),
               error := none, content := none },
             setParam store (generateUniqueFilename env (sanitizeFilename r) content) content) := by
          simp only [saveFile, if_neg h1, h2, h3, Bool.not_true, Bool.false_eq_true, if_false]
        rw [hsave]
        exact ⟨rfl, hWr, hSW, lookup_setParam_ne store (sanitizeFilename r) _ content hSW⟩
      · simp only [saveFile, if_neg h1, h2, h3, Bool.not_true, Bool.not_false, Bool.false_eq_true,
          if_false, if_true] at hs
    · have h2' : isAllowedFileType (sanitizeFilename r) = false := by
        cases hh : isAllowedFileType (sanitizeFilename r)
        · rfl
        · exact absurd hh h2
      simp only [saveFile, if_neg h1, h2', Bool.not_false, if_true] at hs
      exact absurd hs (by decide)

/-- Closed instance of `unique_name_never_requested` at a concrete save. -/
theorem unique_name_never_requested_witness :
    (saveFile fsEnvStub [] (("notes.txt").toList) (("hello").toList)).2 =
      setParam [] (generateUniqueFilename fsEnvStub (sanitizeFilename (("notes.txt").toList)) (("hello").toList)) (("hello").toList) ∧
    generateUniqueFilename fsEnvStub (sanitizeFilename (("notes.txt").toList)) (("hello").toList) ≠ ("notes.txt").toList ∧
    sanitizeFilename (("notes.txt").toList) ≠ generateUniqueFilename fsEnvStub (sanitizeFilename (("notes.txt").toList)) (("hello").toList) ∧
    (saveFile fsEnvStub [] (("notes.txt").toList) (("hello").toList)).2.lookup (sanitizeFilename (("notes.txt").toList)) =
      ([] : FsStore).lookup (sanitizeFilename (("notes.txt").toList)) :=
  unique_name_never_requested fsEnvStub [] (("notes.txt").toList) (("hello").toList)
    fsEnvStub_md5wf (by decide)


/-! ## C7 -/

/-- A pattern occurs at the end of a list. -/
lemma hasSub_suffix (pat x : List Char) : hasSub pat (x ++ pat) = true := by
  have h := hasSub_of_parts pat x []
  simpa using h

/-- Dispatch of an analyze command to the data-processor. -/
lemma handle_data_analyze (env : FsEnv) (store : FsStore) (ps : List (List Char × List Char)) :
    handleSpecializedCommand env store (("data-processor").toList) ⟨tokAnalyze, ps⟩ =
      dataAnalyzeB env store ps := by
  unfold handleSpecializedCommand
  dsimp only
  rw [if_neg (by decide), if_pos rfl, if_pos rfl]

/-- Dispatch of a read command to the data-processor. -/
lemma handle_data_read (env : FsEnv) (store : FsStore) (ps : List (List Char × List Char)) :
    handleSpecializedCommand env store (("data-processor").toList) ⟨tokRead, ps⟩ =
      dataReadB env store ps := by
  unfold handleSpecializedCommand
  dsimp only
  rw [if_neg (by decide), if_pos rfl, if_neg (by decide), if_pos rfl]

/-- Dispatch of a read command to the script-launcher. -/
lemma handle_script_read (env : FsEnv) (store : FsStore) (ps : List (List Char × List Char)) :
    handleSpecializedCommand env store (("script-launcher").toList) ⟨tokRead, ps⟩ =
      scriptReadB env store ps := by
  unfold handleSpecializedCommand
  dsimp only
  rw [if_pos rfl, if_neg (by decide), if_neg (by decide), if_pos rfl]

set_option maxRecDepth 8000 in
/-- C7: the scenario `analyze json: {"a":1,"b":2}` dispatched to the
data-processor reports 2 top-level keys, lists "a, b" and the types
"a: number, b: number"; and every analyze command with JSON content on
which the parser fails yields the descriptive invalid-JSON message with
the parser's message embedded (the total handler never throws). -/
theorem analyze_json_scenario_and_errors :
    (analyzeScenarioOpt.isSome = true ∧
     hasSub (("Number of top-level keys: 2").toList) analyzeScenarioMsg = true ∧
     hasSub (("- Keys: a, b").toList) analyzeScenarioMsg = true ∧
     hasSub (("a: number, b: number").toList) analyzeScenarioMsg = true) ∧
    (∀ (env : FsEnv) (store : FsStore) (content file e : List Char),
      content ≠ [] → jsonParse content = .error e →
      (handleSpecializedCommand env store (("data-processor").toList)
          ⟨tokAnalyze, [(kType, tokJson), (kContent, content), (kFile, file)]⟩).1 =
        some (jsonInvalidMessage e file) ∧
      hasSub e (jsonInvalidMessage e file) = true) := by
  constructor
  · exact ⟨by decide, by decide, by decide, by decide⟩
  · intro env store content file e hc hjson
    refine ⟨?_, hasSub_suffix e _⟩
    rw [handle_data_analyze]
    have l1 : (([(kType, tokJson), (kContent, content), (kFile, file)] :
        List (List Char × List Char)).lookup kType) = some tokJson := rfl
    have l2 : (([(kType, tokJson), (kContent, content), (kFile, file)] :
        List (List Char × List Char)).lookup kContent) = some content := rfl
    have l3 : (([(kType, tokJson), (kContent, content), (kFile, file)] :
        List (List Char × List Char)).lookup kFile) = some file := rfl
    simp only [dataAnalyzeB, l1, l2, l3, Option.getD_some]
    rw [if_neg (by simp [hc])]
    dsimp only
    rw [if_pos ⟨rfl, hc⟩, hjson]

/-- Closed instance of the error half of `analyze_json_scenario_and_errors`. -/
theorem analyze_json_scenario_and_errors_witness :
    (handleSpecializedCommand fsEnvStub [] (("data-processor").toList)
        ⟨tokAnalyze, [(kType, tokJson), (kContent, ("\x7boops").toList), (kFile, [])]⟩).1 =
      some (jsonInvalidMessage (("Expected property name in JSON object").toList) []) ∧
    hasSub (("Expected property name in JSON object").toList)
      (jsonInvalidMessage (("Expected property name in JSON object").toList) []) = true :=
  analyze_json_scenario_and_errors.2 fsEnvStub [] (("\x7boops").toList) []
    (("Expected property name in JSON object").toList) (by decide) (by rfl)

/-! ## C8 -/

/-- A successful read of a stored file. -/
lemma readFile_found (env : FsEnv) (store : FsStore) (filename c : List Char)
    (h : store.lookup (sanitizeFilename filename) = some c) :
    readFile env store filename =
      { success := true,
        message := ("File ").toList ++ sanitizeFilename filename ++ (" read successfully").toList,
        path := some (renderAbs (joinedComponents env.cwd (sanitizeFilename filename))),
        error := none, content := some c } := by
  simp only [readFile, h]

set_option maxRecDepth 8000 in
/-- C8 (counterexample): the script-launcher read of a 501-character file
returns the full raw content — the message contains no ellipsis marker at
all and embeds all 501 characters — so the claim's universal truncation at
the 500-character preview threshold fails outside the data-processor. -/
theorem script_read_does_not_truncate :
    500 < (List.replicate 501 'x').length ∧
    (handleSpecializedCommand fsEnvStub [((("a.txt").toList), List.replicate 501 'x')]
        (("script-launcher").toList) ⟨tokRead, [(kFilename, ("a.txt").toList)]⟩).1 =
      some ((("File: a.txt\nPath: /app/user-files/a.txt\n\n").toList) ++ List.replicate 501 'x') ∧
    hasSub (("...").toList)
      ((("File: a.txt\nPath: /app/user-files/a.txt\n\n").toList) ++ List.replicate 501 'x') = false := by
  refine ⟨by decide, ?_, by decide⟩
  rw [handle_script_read]
  decide

/-- C8 (amended): for every readable, nonempty stored file, the
data-processor's read branch reports the exact line, word and character
counts and previews the content truncated at 500 characters with an
ellipsis appended (the content itself below the threshold), while the
script-launcher's read branch reports the raw content in full, fenced
exactly when the extension is in the fixed code allow-list. -/
theorem read_stats_preview_and_fencing :
    (∀ (env : FsEnv) (store : FsStore) (filename c : List Char),
      store.lookup (sanitizeFilename filename) = some c → c ≠ [] → filename ≠ [] →
      (handleSpecializedCommand env store (("data-processor").toList)
          ⟨tokRead, [(kFilename, filename)]⟩).1 =
        some (("File Analysis: ").toList ++ filename ++ ("\nPath: ").toList ++
          renderAbs (joinedComponents env.cwd (sanitizeFilename filename)) ++
          ("\n\nStats:\n- Lines: ").toList ++ natStr (splitOnChar '\n' c).length ++
          ("\n- Words: ").toList ++ natStr ((splitOnPred isJsWs c).filter (fun w => w ≠ [])).length ++
          ("\n- Characters: ").toList ++ natStr c.length ++
          ("\n- File type: ").toList ++
          (if extOfFilename filename = [] then ("unknown").toList else extOfFilename filename) ++
          ("\n\nPreview:\n").toList ++
          (if c.length > 500 then c.take 500 ++ ("...").toList else c))) ∧
    (∀ (env : FsEnv) (store : FsStore) (filename c : List Char),
      store.lookup (sanitizeFilename filename) = some c → c ≠ [] → filename ≠ [] →
      (handleSpecializedCommand env store (("script-launcher").toList)
          ⟨tokRead, [(kFilename, filename)]⟩).1 =
        some (("File: ").toList ++ filename ++ ("\nPath: ").toList ++
          renderAbs (joinedComponents env.cwd (sanitizeFilename filename)) ++
          ("\n\n").toList ++
          (if codeFileTypes.contains (extOfFilename filename) then
            ("```").toList ++ extOfFilename filename ++ ("\n").toList else []) ++ c ++
          (if codeFileTypes.contains (extOfFilename filename) then ("\n```").toList else []))) := by
  constructor
  · intro env store filename c hlook hc hfn
    rw [handle_data_read]
    have l1 : (([(kFilename, filename)] : List (List Char × List Char)).lookup kFilename)
        = some filename := rfl
    simp only [dataReadB, l1, Option.getD_some]
    rw [if_neg hfn, readFile_found env store filename c hlook]
    dsimp only
    rw [if_pos ⟨rfl, hc⟩]
    rfl
  · intro env store filename c hlook hc hfn
    rw [handle_script_read]
    have l1 : (([(kFilename, filename)] : List (List Char × List Char)).lookup kFilename)
        = some filename := rfl
    simp only [scriptReadB, l1, Option.getD_some]
    rw [if_neg hfn, readFile_found env store filename c hlook]
    dsimp only
    rw [if_pos ⟨rfl, hc⟩]
    rfl

/-- Closed instance of `read_stats_preview_and_fencing` (both branches, on
a two-line stored file). -/
theorem read_stats_preview_and_fencing_witness :
    (handleSpecializedCommand fsEnvStub [((("a.txt").toList), ("hello\nworld two").toList)]
        (("data-processor").toList) ⟨tokRead, [(kFilename, ("a.txt").toList)]⟩).1 =
      some (("File Analysis: ").toList ++ ("a.txt").toList ++ ("\nPath: ").toList ++
        renderAbs (joinedComponents fsEnvStub.cwd (sanitizeFilename (("a.txt").toList))) ++
        ("\n\nStats:\n- Lines: ").toList ++ natStr (splitOnChar '\n' (("hello\nworld two").toList)).length ++
        ("\n- Words: ").toList ++ natStr ((splitOnPred isJsWs (("hello\nworld two").toList)).filter (fun w => w ≠ [])).length ++
        ("\n- Characters: ").toList ++ natStr (("hello\nworld two").toList).length ++
        ("\n- File type: ").toList ++
        (if extOfFilename (("a.txt").toList) = [] then ("unknown").toList else extOfFilename (("a.txt").toList)) ++
        ("\n\nPreview:\n").toList ++
        (if (("hello\nworld two").toList).length > 500 then
          (("hello\nworld two").toList).take 500 ++ ("...").toList else (("hello\nworld two").toList))) :=
  read_stats_preview_and_fencing.1 fsEnvStub [((("a.txt").toList), ("hello\nworld two").toList)]
    (("a.txt").toList) (("hello\nworld two").toList) (by decide) (by decide) (by decide)

/-! ## Combinator inversion and rule disjointness (C6) -/

/-- `some` wins on the left of `<|>`. -/
lemma opt_some_orElse {α : Type} (a : α) (b : Option α) : (some a <|> b) = some a := rfl

/-- `none` defers on the left of `<|>`. -/
lemma opt_none_orElse {α : Type} (b : Option α) : ((none : Option α) <|> b) = b := rfl

/-- `none` on the right of `<|>` is neutral. -/
lemma opt_orElse_none {α : Type} (a : Option α) : (a <|> none) = a := by cases a <;> rfl

/-- A failing first branch of `tryOpts` is skipped. -/
lemma tryOpts_first_fail_none {α : Type} (b : List Char → Option (List Char))
    (bs : List (List Char → Option (List Char))) (k : List Char → Option α) (l : List Char)
    (hb : b l = none) : tryOpts (b :: bs) k l = tryOpts bs k l := by
  show ((match b l with | some r => k r | none => none) <|> tryOpts bs k l) = tryOpts bs k l
  rw [hb]
  exact opt_none_orElse _

/-- A first branch whose continuation fails is skipped (backtracking). -/
lemma tryOpts_first_cont_none {α : Type} (b : List Char → Option (List Char))
    (bs : List (List Char → Option (List Char))) (k : List Char → Option α) (l r : List Char)
    (hb : b l = some r) (hk : k r = none) : tryOpts (b :: bs) k l = tryOpts bs k l := by
  show ((match b l with | some r => k r | none => none) <|> tryOpts bs k l) = tryOpts bs k l
  rw [hb]
  show (k r <|> tryOpts bs k l) = tryOpts bs k l
  rw [hk]
  exact opt_none_orElse _

/-- A first branch whose continuation succeeds settles `tryOpts`. -/
lemma tryOpts_first_some {α : Type} (b : List Char → Option (List Char))
    (bs : List (List Char → Option (List Char))) (k : List Char → Option α) (l r : List Char)
    (v : α) (hb : b l = some r) (hk : k r = some v) : tryOpts (b :: bs) k l = some v := by
  show ((match b l with | some r => k r | none => none) <|> tryOpts bs k l) = some v
  rw [hb]
  show (k r <|> tryOpts bs k l) = some v
  rw [hk]
  exact opt_some_orElse _ _

/-- A trailing skip branch just runs the continuation. -/
lemma tryOpts_skip_single {α : Type} (k : List Char → Option α) (l : List Char) :
    tryOpts [skipB] k l = k l := by
  show (k l <|> none) = k l
  exact opt_orElse_none _

/-- A successful `tryOpts` names a successful branch and continuation. -/
lemma tryOpts_some_ex {α : Type} (bs : List (List Char → Option (List Char)))
    (k : List Char → Option α) (l : List Char) (v : α)
    (h : tryOpts bs k l = some v) :
    ∃ b ∈ bs, ∃ r, b l = some r ∧ k r = some v := by
  induction bs with
  | nil => exact absurd h (by simp [tryOpts])
  | cons b bs ih =>
    cases hb : b l with
    | none =>
      rw [tryOpts_first_fail_none _ _ _ _ hb] at h
      obtain ⟨b', hb', r, h1, h2⟩ := ih h
      exact ⟨b', List.mem_cons_of_mem _ hb', r, h1, h2⟩
    | some r =>
      cases hk : k r with
      | none =>
        rw [tryOpts_first_cont_none _ _ _ _ _ hb hk] at h
        obtain ⟨b', hb', r', h1, h2⟩ := ih h
        exact ⟨b', List.mem_cons_of_mem _ hb', r', h1, h2⟩
      | some w =>
        rw [tryOpts_first_some _ _ _ _ _ _ hb hk] at h
        exact ⟨b, List.mem_cons_self _ _, r, hb, by rw [hk]; exact h⟩

/-- A failing literal head of `litAlt` is skipped. -/
lemma litAlt_first_fail {α : Type} (t : List Char) (ts : List (List Char))
    (k : List Char → List Char → Option α) (l : List Char)
    (hm : matchLit t l = none) : litAlt (t :: ts) k l = litAlt ts k l := by
  show ((match matchLit t l with | some r => k t r | none => none) <|> litAlt ts k l) = litAlt ts k l
  rw [hm]
  exact opt_none_orElse _

/-- A matching literal head with succeeding continuation settles `litAlt`. -/
lemma litAlt_first_some {α : Type} (t : List Char) (ts : List (List Char))
    (k : List Char → List Char → Option α) (l r : List Char) (v : α)
    (hm : matchLit t l = some r) (hk : k t r = some v) : litAlt (t :: ts) k l = some v := by
  show ((match matchLit t l with | some r => k t r | none => none) <|> litAlt ts k l) = some v
  rw [hm]
  show (k t r <|> litAlt ts k l) = some v
  rw [hk]
  exact opt_some_orElse _ _

/-- A matching literal head whose continuation fails is skipped. -/
lemma litAlt_first_cont_none {α : Type} (t : List Char) (ts : List (List Char))
    (k : List Char → List Char → Option α) (l r : List Char)
    (hm : matchLit t l = some r) (hk : k t r = none) : litAlt (t :: ts) k l = litAlt ts k l := by
  show ((match matchLit t l with | some r => k t r | none => none) <|> litAlt ts k l) = litAlt ts k l
  rw [hm]
  show (k t r <|> litAlt ts k l) = litAlt ts k l
  rw [hk]
  exact opt_none_orElse _

/-- A successful `litAlt` names a matching token and continuation. -/
lemma litAlt_some_ex {α : Type} (ts : List (List Char))
    (k : List Char → List Char → Option α) (l : List Char) (v : α)
    (h : litAlt ts k l = some v) :
    ∃ t ∈ ts, ∃ r, matchLit t l = some r ∧ k t r = some v := by
  induction ts with
  | nil => exact absurd h (by simp [litAlt])
  | cons t ts ih =>
    cases hm : matchLit t l with
    | none =>
      rw [litAlt_first_fail _ _ _ _ hm] at h
      obtain ⟨t', ht', r, h1, h2⟩ := ih h
      exact ⟨t', List.mem_cons_of_mem _ ht', r, h1, h2⟩
    | some r =>
      cases hk : k t r with
      | none =>
        rw [litAlt_first_cont_none _ _ _ _ _ hm hk] at h
        obtain ⟨t', ht', r', h1, h2⟩ := ih h
        exact ⟨t', List.mem_cons_of_mem _ ht', r', h1, h2⟩
      | some w =>
        rw [litAlt_first_some _ _ _ _ _ _ hm hk] at h
        exact ⟨t, List.mem_cons_self _ _, r, hm, by rw [hk]; exact h⟩

/-- A case-insensitive token match at the head always succeeds on the token
itself (any casing of the remaining input). -/
lemma matchLit_refl_append (tok rest : List Char) : matchLit tok (tok ++ rest) = some rest := by
  induction tok with
  | nil => rfl
  | cons c cs ih => simp [matchLit, ih]

/-- Characterisation of `matchLit`: success splits the input into a consumed
slice that lower-cases to the token, and the rest. -/
lemma matchLit_some_iff (tok : List Char) : ∀ (l r : List Char),
    matchLit tok l = some r ↔ ∃ p, l = p ++ r ∧ lowerList p = lowerList tok := by
  induction tok with
  | nil =>
    intro l r
    simp only [matchLit, Option.some.injEq]
    constructor
    · intro h
      exact ⟨[], by simp [h], rfl⟩
    · rintro ⟨p, hl, hp⟩
      cases p with
      | nil => simpa using hl
      | cons a as => simp [lowerList] at hp
  | cons c cs ih =>
    intro l r
    cases l with
    | nil =>
      constructor
      · intro h; exact absurd h (by simp [matchLit])
      · rintro ⟨p, hl, hp⟩
        cases p with
        | nil => simp [lowerList] at hp
        | cons a as => simp at hl
    | cons d ds =>
      by_cases h : lowerChar d = lowerChar c
      · rw [show matchLit (c :: cs) (d :: ds) = matchLit cs ds from by simp [matchLit, h]]
        rw [ih ds r]
        constructor
        · rintro ⟨p, hds, hp⟩
          refine ⟨d :: p, by simp [hds], ?_⟩
          rw [show lowerList (d :: p) = lowerChar d :: lowerList p from rfl,
            show lowerList (c :: cs) = lowerChar c :: lowerList cs from rfl, h, hp]
        · rintro ⟨p, hl, hp⟩
          cases p with
          | nil => simp [lowerList] at hp
          | cons a as =>
            simp only [List.cons_append, List.cons.injEq] at hl
            simp only [lowerList, List.map_cons, List.cons.injEq] at hp
            obtain ⟨rfl, hds⟩ := hl
            exact ⟨as, hds, hp.2⟩
      · rw [show matchLit (c :: cs) (d :: ds) = none from by simp [matchLit, h]]
        constructor
        · intro hc; exact absurd hc (by simp)
        · rintro ⟨p, hl, hp⟩
          cases p with
          | nil => simp [lowerList] at hp
          | cons a as =>
            simp only [List.cons_append, List.cons.injEq] at hl
            simp only [lowerList, List.map_cons, List.cons.injEq] at hp
            obtain ⟨rfl, _⟩ := hl
            exact absurd hp.1 h

/-- A consumed token is a case-insensitive prefix of the input. -/
lemma ciPre_isPrefixOf (u t : List Char) (h : ciPre u t) :
    (lowerList u).isPrefixOf (lowerList t) = true := by
  obtain ⟨r, hr⟩ := h
  obtain ⟨p, rfl, hpl⟩ := (matchLit_some_iff _ _ _).mp hr
  rw [← hpl]
  rw [show lowerList (p ++ r) = lowerList p ++ lowerList r from by simp [lowerList]]
  exact isPrefixOf_append _ _

/-- Two tokens consumed at the head of the same input are comparable in the
case-insensitive prefix order. -/
lemma ciPre_lowPre (a b t : List Char) (ha : ciPre a t) (hb : ciPre b t) :
    lowPre a b = true ∨ lowPre b a = true := by
  obtain ⟨r, hr⟩ := ha
  obtain ⟨s, hs⟩ := hb
  obtain ⟨p, hp, hpl⟩ := (matchLit_some_iff _ _ _).mp hr
  obtain ⟨q, hq, hql⟩ := (matchLit_some_iff _ _ _).mp hs
  have hpq : p ++ r = q ++ s := by rw [← hp, ← hq]
  rcases List.append_eq_append_iff.mp hpq with ⟨m, hm, _⟩ | ⟨m, hm, _⟩
  · left
    unfold lowPre
    rw [← hpl, ← hql, hm]
    rw [show lowerList (p ++ m) = lowerList p ++ lowerList m from by simp [lowerList]]
    exact isPrefixOf_append _ _
  · right
    unfold lowPre
    rw [← hpl, ← hql, hm]
    rw [show lowerList (q ++ m) = lowerList q ++ lowerList m from by simp [lowerList]]
    exact isPrefixOf_append _ _

/-- A successful `please`-branch means "please" was consumed at the head. -/
lemma pleaseB_ciPre (l r : List Char) (h : pleaseB l = some r) : ciPre tokPlease l := by
  unfold pleaseB at h
  obtain ⟨r0, h0, _⟩ := Option.bind_eq_some.mp h
  exact ⟨r0, h0⟩

/-- A rule of the shared shape `(?:please\s+)?(verb-alternation)...` consumed
either "please" and then a verb, or a verb at the very head. -/
lemma ruleStart_shape {α : Type} (ts : List (List Char)) (K : List Char → List Char → Option α)
    (l : List Char) (v : α)
    (h : tryOpts [pleaseB, skipB] (fun r => litAlt ts K r) l = some v) :
    (∃ r0, pleaseB l = some r0 ∧ ∃ t ∈ ts, ciPre t r0) ∨ (∃ t ∈ ts, ciPre t l) := by
  obtain ⟨b, hb, r, h1, h2⟩ := tryOpts_some_ex _ _ _ _ h
  obtain ⟨t, ht, r2, h3, _⟩ := litAlt_some_ex _ _ _ _ h2
  rcases List.mem_cons.mp hb with rfl | hb2
  · exact .inl ⟨r, h1, t, ht, r2, h3⟩
  · rcases List.mem_cons.mp hb2 with rfl | hb3
    · cases Option.some.inj h1
      exact .inr ⟨t, ht, r2, h3⟩
    · exact absurd hb3 (List.not_mem_nil _)

/-- Two rules of the shared shape with case-insensitively incomparable verb
sets (and verbs incomparable with "please") cannot both match. -/
lemma rules_disjoint_start {α β : Type} (ts1 ts2 : List (List Char))
    (K1 : List Char → List Char → Option α) (K2 : List Char → List Char → Option β)
    (l : List Char) (v1 : α) (v2 : β)
    (h1 : tryOpts [pleaseB, skipB] (fun r => litAlt ts1 K1 r) l = some v1)
    (h2 : tryOpts [pleaseB, skipB] (fun r => litAlt ts2 K2 r) l = some v2)
    (hvw : ∀ v ∈ ts1, ∀ w ∈ ts2, lowPre v w = false ∧ lowPre w v = false)
    (hp1 : ∀ v ∈ ts1, lowPre v tokPlease = false ∧ lowPre tokPlease v = false)
    (hp2 : ∀ w ∈ ts2, lowPre w tokPlease = false ∧ lowPre tokPlease w = false) :
    False := by
  rcases ruleStart_shape _ _ _ _ h1 with ⟨r0, hr0, t1, ht1, hc1⟩ | ⟨t1, ht1, hc1⟩
  · rcases ruleStart_shape _ _ _ _ h2 with ⟨r0x, hr0x, t2, ht2, hc2⟩ | ⟨t2, ht2, hc2⟩
    · cases Option.some.inj (hr0.symm.trans hr0x)
      rcases ciPre_lowPre t1 t2 r0 hc1 hc2 with h | h
      · exact Bool.false_ne_true ((hvw t1 ht1 t2 ht2).1.symm.trans h)
      · exact Bool.false_ne_true ((hvw t1 ht1 t2 ht2).2.symm.trans h)
    · have hcp := pleaseB_ciPre _ _ hr0
      rcases ciPre_lowPre tokPlease t2 l hcp hc2 with h | h
      · exact Bool.false_ne_true ((hp2 t2 ht2).2.symm.trans h)
      · exact Bool.false_ne_true ((hp2 t2 ht2).1.symm.trans h)
  · rcases ruleStart_shape _ _ _ _ h2 with ⟨r0x, hr0x, t2, ht2, hc2⟩ | ⟨t2, ht2, hc2⟩
    · have hcp := pleaseB_ciPre _ _ hr0x
      rcases ciPre_lowPre t1 tokPlease l hc1 hcp with h | h
      · exact Bool.false_ne_true ((hp1 t1 ht1).1.symm.trans h)
      · exact Bool.false_ne_true ((hp1 t1 ht1).2.symm.trans h)
    · rcases ciPre_lowPre t1 t2 l hc1 hc2 with h | h
      · exact Bool.false_ne_true ((hvw t1 ht1 t2 ht2).1.symm.trans h)
      · exact Bool.false_ne_true ((hvw t1 ht1 t2 ht2).2.symm.trans h)

/-- The create and search rules never match the same text. -/
lemma ruleCreate_search_clash (t : List Char) (pc1 pc2 : ParsedCommand)
    (h1 : ruleCreate t = some pc1) (h2 : ruleSearch t = some pc2) : False :=
  rules_disjoint_start _ _ _ _ _ _ _ h1 h2 (by decide) (by decide) (by decide)

/-- The list and search rules never match the same text. -/
lemma ruleList_search_clash (t : List Char) (pc1 pc2 : ParsedCommand)
    (h1 : ruleList t = some pc1) (h2 : ruleSearch t = some pc2) : False :=
  rules_disjoint_start _ _ _ _ _ _ _ h1 h2 (by decide) (by decide) (by decide)

/-- The analyze and search rules never match the same text. -/
lemma ruleAnalyze_search_clash (t : List Char) (pc1 pc2 : ParsedCommand)
    (h1 : ruleAnalyze t = some pc1) (h2 : ruleSearch t = some pc2) : False :=
  rules_disjoint_start _ _ _ _ _ _ _ h1 h2 (by decide) (by decide) (by decide)

/-- A text matched by the search rule is not a help literal. -/
lemma search_not_helpLit (t : List Char) (pc : ParsedCommand)
    (hS : ruleSearch t = some pc) : isHelpLiteral t = false := by
  have hsh := ruleStart_shape _ _ _ _ hS
  have hu : ∃ u ∈ [tokSearch, tokFind, tokLook, tokPlease], ciPre u t := by
    rcases hsh with ⟨r0, hr0, u, hu, _⟩ | ⟨u, hu, hc⟩
    · exact ⟨tokPlease, by simp, pleaseB_ciPre _ _ hr0⟩
    · refine ⟨u, ?_, hc⟩
      simp only [List.mem_cons, List.not_mem_nil, or_false] at hu ⊢
      tauto
  obtain ⟨u, hu, hc⟩ := hu
  have hpre := ciPre_isPrefixOf u t hc
  cases hh : isHelpLiteral t
  · rfl
  · exfalso
    have h4 : ((lowerList t = tokHelp ∨ lowerList t = tokCommands) ∨
        lowerList t = (tokHelp ++ ' ' :: tokWith ++ ' ' :: tokCommands)) ∨
        lowerList t = (tokShow ++ ' ' :: tokCommands) := by
      simpa [isHelpLiteral] using hh
    simp only [List.mem_cons, List.not_mem_nil, or_false] at hu
    rcases hu with rfl | rfl | rfl | rfl <;>
      rcases h4 with ((h4 | h4) | h4) | h4 <;>
      rw [h4] at hpre <;> revert hpre <;> decide

/-- A search-rule match silences every earlier stage of the cascade. -/
lemma search_beats_earlier (t : List Char) (pc : ParsedCommand)
    (hS : ruleSearch t = some pc) :
    ruleCreate t = none ∧ ruleList t = none ∧ ruleAnalyze t = none ∧
      isHelpLiteral t = false := by
  refine ⟨?_, ?_, ?_, search_not_helpLit _ _ hS⟩
  · cases hC : ruleCreate t with
    | none => rfl
    | some pc1 => exact absurd (ruleCreate_search_clash _ _ _ hC hS) (by simp)
  · cases hL : ruleList t with
    | none => rfl
    | some pc1 => exact absurd (ruleList_search_clash _ _ _ hL hS) (by simp)
  · cases hA : ruleAnalyze t with
    | none => rfl
    | some pc1 => exact absurd (ruleAnalyze_search_clash _ _ _ hA hS) (by simp)

/-- **C6.** Away from the literal-help short-circuit, `detectCommand` is the
first-match evaluation of the declared rule order `create, list, analyze,
search, schedule, read, delete`, with the free-form extractor consulted only
when no rule matches; and a text matched by the search rule is always
classified by the search rule (in particular it beats the free-form verb
extraction, which is never reached). -/
theorem first_rule_wins :
    (∀ msg, isHelpLiteral (jsTrim msg) = false →
      detectCommand msg = (firstRule rulesInOrder (jsTrim msg) <|> fallbackExtract msg)) ∧
    (∀ msg pc, ruleSearch (jsTrim msg) = some pc → detectCommand msg = some pc) := by
  constructor
  · intro msg hh
    unfold detectCommand
    rw [if_neg (by rw [hh]; exact Bool.false_ne_true)]
    simp only [rulesInOrder, firstRule]
    cases h1 : ruleCreate (jsTrim msg) with
    | some pc => rfl
    | none =>
      cases h2 : ruleList (jsTrim msg) with
      | some pc => rfl
      | none =>
        cases h3 : ruleAnalyze (jsTrim msg) with
        | some pc => rfl
        | none =>
          cases h4 : ruleSearch (jsTrim msg) with
          | some pc => rfl
          | none =>
            cases h5 : ruleSchedule (jsTrim msg) with
            | some pc => rfl
            | none =>
              cases h6 : ruleRead (jsTrim msg) with
              | some pc => rfl
              | none =>
                cases h7 : ruleDelete (jsTrim msg) with
                | some pc => rfl
                | none => rfl
  · intro msg pc hS
    have hd := search_beats_earlier _ _ hS
    unfold detectCommand
    rw [if_neg (by rw [hd.2.2.2]; exact Bool.false_ne_true), hd.1, hd.2.1, hd.2.2.1, hS]

/-- Closed instance of `first_rule_wins`: the non-help text "list files" is
classified by the ordered rule list, and "search cats" — which the free-form
extractor would also accept (its `command` key is truthy) — is classified by
the search rule. -/
theorem first_rule_wins_witness :
    isHelpLiteral (jsTrim (("list files").toList)) = false ∧
    detectCommand (("list files").toList) =
      (firstRule rulesInOrder (jsTrim (("list files").toList)) <|>
        fallbackExtract (("list files").toList)) ∧
    ruleSearch (jsTrim (("search cats").toList)) =
      some ⟨tokSearch, [(kQuery, ("cats").toList), (kSource, [])]⟩ ∧
    (extractParameters (("search cats").toList)).lookup kCommand = some tokSearch ∧
    detectCommand (("search cats").toList) =
      some ⟨tokSearch, [(kQuery, ("cats").toList), (kSource, [])]⟩ :=
  ⟨by decide, first_rule_wins.1 _ (by decide), by decide, by decide,
   first_rule_wins.2 _ _ (by decide)⟩

/-- A filename-class character is not whitespace. -/
lemma fileClass_not_ws (c : Char) (h : isFileClass c = true) : isJsWs c = false := by
  cases hw : isJsWs c
  · rfl
  · exfalso
    have hcs : (((((c = ' ' ∨ c = '\t') ∨ c = '\n') ∨ c = '\r') ∨ c = '\x0b') ∨ c = '\x0c') ∨ c = '\u00A0' := by
      simpa [isJsWs] using hw
    rcases hcs with ((((((rfl | rfl) | rfl) | rfl) | rfl) | rfl) | rfl) <;> exact absurd h (by decide)

/-- `takeWhile` stops exactly at the end of an all-class block. -/
lemma takeWhile_class_append (p : Char → Bool) (nm : List Char) (y : Char) (ys : List Char)
    (h : ∀ c ∈ nm, p c = true) (hy : p y = false) :
    ((nm ++ y :: ys).takeWhile p) = nm := by
  induction nm with
  | nil => simp [List.takeWhile_cons, hy]
  | cons c cs ih =>
    have hc := h c (by simp)
    have ih2 := ih (fun d hd => h d (by simp [hd]))
    simp [List.takeWhile_cons, hc, ih2]

/-- `dropWhile` does not enter an all-class block. -/
lemma dropWhile_class_append (nm Y : List Char) (hnm : nm ≠ [])
    (hcls : ∀ c ∈ nm, isFileClass c = true) :
    ((nm ++ Y).dropWhile isJsWs) = nm ++ Y := by
  cases nm with
  | nil => exact absurd rfl hnm
  | cons c cs =>
    simp only [List.cons_append, List.dropWhile_cons]
    rw [fileClass_not_ws c (hcls c (by simp))]
    simp

/-- The name continuation of the create rule needs the mandatory `\s+` and
fails on a filename-class head. -/
lemma createNameTail_head_class (ty : List Char) (z : Char) (zs : List Char)
    (hz : isFileClass z = true) : createNameTail ty (z :: zs) = none := by
  unfold createNameTail
  rw [show ws1 (z :: zs) = none from by simp [ws1, fileClass_not_ws z hz]]
  rfl

/-- The optional `called`/`named`-style group of the create rule cannot
consume when the following captured word is not (case-insensitively) the
group word itself: either the literal fails outright, or consuming it eats
exactly the name and the continuation then fails on a filename-class head. -/
lemma calledNamed_branch_skip (tok nm Y : List Char) (K : List Char → Option ParsedCommand)
    (hnm : nm ≠ []) (hcls : ∀ ch ∈ nm, isFileClass ch = true)
    (hlow : lowerList tok = tok) (hsp : ' ' ∉ tok) (hne : lowerList nm ≠ tok)
    (hY : ∃ ys, Y = ' ' :: ys)
    (hK : ∀ z zs, isFileClass z = true → K (z :: zs) = none)
    (bs : List (List Char → Option (List Char))) :
    tryOpts (wsThen tok :: bs) K (' ' :: (nm ++ Y)) = tryOpts bs K (' ' :: (nm ++ Y)) := by
  have hws : wsThen tok (' ' :: (nm ++ Y)) = matchLit tok (nm ++ Y) := by
    unfold wsThen
    rw [show ws1 (' ' :: (nm ++ Y)) = some ((nm ++ Y).dropWhile isJsWs) from rfl,
      dropWhile_class_append nm Y hnm hcls]
    rfl
  cases hm : matchLit tok (nm ++ Y) with
  | none => exact tryOpts_first_fail_none _ _ _ _ (hws.trans hm)
  | some r =>
    obtain ⟨p, hsplit, hpl⟩ := (matchLit_some_iff _ _ _).mp hm
    rw [hlow] at hpl
    rcases List.append_eq_append_iff.mp hsplit with ⟨a, ha1, ha2⟩ | ⟨c', hc1', hc2'⟩
    · cases a with
      | nil =>
        rw [List.append_nil] at ha1
        exact absurd (by rw [← ha1]; exact hpl) hne
      | cons y ys =>
        obtain ⟨ys0, hY0⟩ := hY
        rw [hY0, List.cons_append] at ha2
        have hy : y = ' ' := ((List.cons.inj ha2).1).symm
        have hsp2 : ' ' ∈ tok := by
          rw [← hpl, ha1, hy]
          rw [show lowerList (nm ++ ' ' :: ys) = lowerList nm ++ lowerList (' ' :: ys) from by
            simp [lowerList]]
          refine List.mem_append_right _ ?_
          rw [show lowerList (' ' :: ys) = ' ' :: lowerList ys from by
            rw [show lowerList (' ' :: ys) = lowerChar ' ' :: lowerList ys from rfl,
              show lowerChar ' ' = ' ' from by decide]]
          exact List.mem_cons_self _ _
        exact absurd hsp2 hsp
    · cases c' with
      | nil =>
        rw [List.append_nil] at hc1'
        exact absurd (by rw [hc1']; exact hpl) hne
      | cons z zs =>
        have hz : isFileClass z = true := hcls z (by rw [hc1']; simp)
        have hkr : K r = none := by
          rw [hc2', List.cons_append]
          exact hK z (zs ++ Y) hz
        exact tryOpts_first_cont_none _ _ _ _ _ (hws.trans hm) hkr

/-- Evaluation of the create rule past the optional `called`/`named` group:
the greedy name capture takes exactly the name, and the content tail
captures everything after `content:` including the leading space. -/
lemma createTail_eval (ty nm tx : List Char)
    (hnm : nm ≠ []) (hcls : ∀ ch ∈ nm, isFileClass ch = true)
    (hc1 : lowerList nm ≠ tokCalled) (hc2 : lowerList nm ≠ tokNamed)
    (htx : ∀ ch ∈ tx, isDotChar ch = true) :
    tryOpts [wsThen tokCalled, wsThen tokNamed, skipB] (createNameTail ty)
      (' ' :: (nm ++ (' ' :: (tokWith ++ (' ' :: (tokContent ++ (':' :: (' ' :: tx)))))))) =
      some ⟨tokCreate, [(kType, ty), (kName, nm), (kContent, ' ' :: tx)]⟩ := by
  have hK : ∀ z zs, isFileClass z = true → createNameTail ty (z :: zs) = none :=
    fun z zs hz => createNameTail_head_class ty z zs hz
  have htx2 : tx.all isDotChar = true := List.all_eq_true.mpr htx
  have hdot : (' ' :: tx).all isDotChar = true := by
    rw [List.all_cons, htx2, show isDotChar ' ' = true from by decide]
    rfl
  have h5 : dotStar (' ' :: tx) = some (' ' :: tx) := by
    unfold dotStar
    rw [if_pos hdot]
  have hcolon : colonGroup dotStar (':' :: (' ' :: tx)) = some (' ' :: tx) := by
    show (dotStar (' ' :: tx) <|> _) = some (' ' :: tx)
    rw [h5]
    exact opt_some_orElse _ _
  have hcan : createAfterName (' ' :: (tokWith ++ (' ' :: (tokContent ++ (':' :: (' ' :: tx)))))) =
      some (' ' :: tx) := by
    show (colonGroup dotStar (':' :: (' ' :: tx)) <|> _) = some (' ' :: tx)
    rw [hcolon]
    exact opt_some_orElse _ _
  rw [calledNamed_branch_skip tokCalled nm _ _ hnm hcls (by decide) (by decide) hc1 ⟨_, rfl⟩ hK,
    calledNamed_branch_skip tokNamed nm _ _ hnm hcls (by decide) (by decide) hc2 ⟨_, rfl⟩ hK,
    tryOpts_skip_single]
  unfold createNameTail
  rw [show ws1 (' ' :: (nm ++ (' ' :: (tokWith ++ (' ' :: (tokContent ++ (':' :: (' ' :: tx)))))))) =
      some ((nm ++ (' ' :: (tokWith ++ (' ' :: (tokContent ++ (':' :: (' ' :: tx))))))).dropWhile isJsWs)
      from rfl,
    dropWhile_class_append nm _ hnm hcls]
  show classPlus isFileClass _
      (nm ++ (' ' :: (tokWith ++ (' ' :: (tokContent ++ (':' :: (' ' :: tx))))))) = _
  unfold classPlus
  rw [takeWhile_class_append isFileClass nm ' ' _ hcls (by decide)]
  obtain ⟨c0, cs0, rfl⟩ : ∃ c cs, nm = c :: cs := by
    cases nm with
    | nil => exact absurd rfl hnm
    | cons c cs => exact ⟨c, cs, rfl⟩
  rw [List.length_cons]
  simp only [splitTries]
  rw [show cs0.length + 1 = (c0 :: cs0).length from rfl, List.take_left, List.drop_left]
  rw [hcan]
  rfl

/-- First-match evaluation of `litAlt` when the input begins with one of the
tokens and every other token fails on it. -/
lemma litAlt_mem_some {α : Type} (ts : List (List Char)) (k : List Char → List Char → Option α)
    (ty X : List Char) (v : α) (hmem : ty ∈ ts)
    (hfail : ∀ t ∈ ts, t ≠ ty → matchLit t (ty ++ X) = none)
    (hk : k ty X = some v) :
    litAlt ts k (ty ++ X) = some v := by
  induction ts with
  | nil => exact absurd hmem (List.not_mem_nil _)
  | cons t ts ih =>
    rcases List.mem_cons.mp hmem with rfl | hmem2
    · exact litAlt_first_some _ _ _ _ _ _ (matchLit_refl_append _ _) hk
    · by_cases he : t = ty
      · subst he
        exact litAlt_first_some _ _ _ _ _ _ (matchLit_refl_append _ _) hk
      · rw [litAlt_first_fail _ _ _ _ (hfail t (List.mem_cons_self _ _) he)]
        exact ih hmem2 (fun u hu hune => hfail u (List.mem_cons_of_mem _ hu) hune)

/-- Reduction of the create rule down to the optional `called`/`named` group:
the leading optional groups resolve deterministically on a `create …` text. -/
lemma ruleCreate_reduce (ty rest : List Char) (v : ParsedCommand)
    (htail : tryOpts [wsThen tokCalled, wsThen tokNamed, skipB] (createNameTail ty)
      (' ' :: rest) = some v)
    (hdrop : (ty ++ ' ' :: rest).dropWhile isJsWs = ty ++ ' ' :: rest)
    (hA : matchLit tokA (ty ++ ' ' :: rest) = none)
    (hAn : matchLit tokAn (ty ++ ' ' :: rest) = none)
    (hmem : ty ∈ [tokFile, tokDocument, tokScript, tokJson, tokHtml, tokCss, tokPython,
      tokTypescript, tokJavascript])
    (hfail : ∀ t ∈ [tokFile, tokDocument, tokScript, tokJson, tokHtml, tokCss, tokPython,
      tokTypescript, tokJavascript], t ≠ ty → matchLit t (ty ++ ' ' :: rest) = none) :
    ruleCreate (tokCreate ++ ' ' :: (ty ++ ' ' :: rest)) = some v := by
  unfold ruleCreate
  rw [tryOpts_first_fail_none _ _ _ _
      (show pleaseB (tokCreate ++ ' ' :: (ty ++ ' ' :: rest)) = none from rfl),
    tryOpts_skip_single]
  refine litAlt_first_some _ _ _ _ _ _ (matchLit_refl_append tokCreate _) ?_
  show tryOpts [wsThen tokA, wsThen tokAn, skipB] _ (' ' :: (ty ++ ' ' :: rest)) = some v
  have hwA : wsThen tokA (' ' :: (ty ++ ' ' :: rest)) = none := by
    unfold wsThen
    rw [show ws1 (' ' :: (ty ++ ' ' :: rest)) =
        some ((ty ++ ' ' :: rest).dropWhile isJsWs) from rfl, hdrop]
    exact hA
  have hwAn : wsThen tokAn (' ' :: (ty ++ ' ' :: rest)) = none := by
    unfold wsThen
    rw [show ws1 (' ' :: (ty ++ ' ' :: rest)) =
        some ((ty ++ ' ' :: rest).dropWhile isJsWs) from rfl, hdrop]
    exact hAn
  rw [tryOpts_first_fail_none _ _ _ _ hwA, tryOpts_first_fail_none _ _ _ _ hwAn,
    tryOpts_skip_single]
  show ((ws1 (' ' :: (ty ++ ' ' :: rest))).bind _) = some v
  rw [show ws1 (' ' :: (ty ++ ' ' :: rest)) =
      some ((ty ++ ' ' :: rest).dropWhile isJsWs) from rfl, hdrop]
  show litAlt _ _ (ty ++ ' ' :: rest) = some v
  exact litAlt_mem_some _ _ _ _ _ hmem hfail htail

/-- The create grammar `create <type> <name> with content: <text>` is
extracted exactly: type and name are the captures and the content capture
keeps its leading space. -/
lemma ruleCreate_grammar (ty nm tx : List Char)
    (hty : ty ∈ [tokFile, tokDocument, tokScript, tokJson, tokHtml, tokCss, tokPython,
      tokTypescript, tokJavascript])
    (hnm : nm ≠ []) (hcls : ∀ ch ∈ nm, isFileClass ch = true)
    (hc1 : lowerList nm ≠ tokCalled) (hc2 : lowerList nm ≠ tokNamed)
    (htx : ∀ ch ∈ tx, isDotChar ch = true) :
    ruleCreate (tokCreate ++ ' ' :: (ty ++ ' ' :: (nm ++ ' ' :: (tokWith ++ ' ' ::
        (tokContent ++ ':' :: ' ' :: tx))))) =
      some ⟨tokCreate, [(kType, ty), (kName, nm), (kContent, ' ' :: tx)]⟩ := by
  have htail := createTail_eval ty nm tx hnm hcls hc1 hc2 htx
  simp only [List.mem_cons, List.not_mem_nil, or_false] at hty
  rcases hty with rfl | rfl | rfl | rfl | rfl | rfl | rfl | rfl | rfl <;>
    refine ruleCreate_reduce _ _ _ htail rfl rfl rfl (by simp) ?_ <;>
    (intro t ht hne
     simp only [List.mem_cons, List.not_mem_nil, or_false] at ht
     rcases ht with rfl | rfl | rfl | rfl | rfl | rfl | rfl | rfl | rfl <;>
       first | exact absurd rfl hne | rfl)

/-- `getLast?` looks past an appended prefix. -/
lemma getLast_append_ne (A tx : List Char) (htx : tx ≠ []) :
    (A ++ tx).getLast? = tx.getLast? := by
  induction A with
  | nil => rfl
  | cons a as ih =>
    rw [List.cons_append]
    cases hcase : as ++ tx with
    | nil => exact absurd (List.append_eq_nil.mp hcase).2 htx
    | cons b bs =>
      rw [List.getLast?_cons_cons, ← hcase]
      exact ih

/-- A string whose head survives `dropWhile` and whose last character is not
whitespace is its own trim. -/
lemma jsTrim_eq_self (l : List Char) (hhead : l.dropWhile isJsWs = l)
    (hlast : ∀ y, l.getLast? = some y → isJsWs y = false) : jsTrim l = l := by
  unfold jsTrim
  rw [hhead]
  cases hrev : l.reverse with
  | nil =>
    simp only [List.dropWhile_nil, List.reverse_nil]
    exact (List.reverse_eq_nil_iff.mp hrev).symm
  | cons y ys =>
    have hy : l.getLast? = some y := by
      rw [← List.head?_reverse, hrev]
      rfl
    have hw := hlast y hy
    rw [List.dropWhile_cons, hw]
    rw [if_neg (by exact Bool.false_ne_true)]
    rw [← hrev, List.reverse_reverse]

/-- No text beginning with "create" is a help literal. -/
lemma isHelpLiteral_create (X : List Char) : isHelpLiteral (tokCreate ++ X) = false := rfl

/-- The cascade returns the create rule's match on a trimmed non-help text. -/
lemma detectCommand_create (msg : List Char) (pc : ParsedCommand)
    (ht : jsTrim msg = msg) (hh : isHelpLiteral msg = false)
    (hC : ruleCreate msg = some pc) : detectCommand msg = some pc := by
  unfold detectCommand
  rw [ht, if_neg (by rw [hh]; exact Bool.false_ne_true), hC]

/-- Dispatch of the script-launcher create branch. -/
lemma handle_script_create (env : FsEnv) (store : FsStore) (ps : List (List Char × List Char)) :
    handleSpecializedCommand env store (("script-launcher").toList) ⟨tokCreate, ps⟩ =
      scriptCreateB env store ps := by
  unfold handleSpecializedCommand
  dsimp only
  rw [if_pos rfl, if_pos rfl]

/-- A successful save stores the content exactly under the uniquified name. -/
lemma saveFile_success_store (env : FsEnv) (store : FsStore) (fn c : List Char)
    (h : (saveFile env store fn c).1.success = true) :
    (saveFile env store fn c).2 =
      setParam store (generateUniqueFilename env (sanitizeFilename fn) c) c := by
  unfold saveFile at h ⊢
  by_cases h1 : fn = []
  · rw [if_pos h1] at h
    exact absurd h (by simp)
  · rw [if_neg h1] at h ⊢
    dsimp only at h ⊢
    by_cases h2 : (!isAllowedFileType (sanitizeFilename fn)) = true
    · rw [if_pos h2] at h
      exact absurd h (by simp)
    · rw [if_neg h2] at h ⊢
      by_cases h3 : (!validateFileContent c) = true
      · rw [if_pos h3] at h
        exact absurd h (by simp)
      · rw [if_neg h3] at h ⊢

/-- Regrouping of an append chain around a concrete boundary. -/
lemma append_regroup {α : Type} (A B C D E Z : List α)
    (h : (A ++ B) ++ C = D ++ E) :
    A ++ (B ++ (C ++ Z)) = D ++ (E ++ Z) := by
  rw [← List.append_assoc, ← List.append_assoc, ← List.append_assoc, h]

set_option maxRecDepth 8000 in
/-- **C3** (amended).  The `create <type> <name> with content: <text>` grammar
is extracted exactly — commandType `create`, `params.type`/`params.name` the
captures, `params.content` the capture after `content:` (which keeps its
leading space) — and a name without a `.` gets the extension from the
type→extension table appended (default `.txt`), so type `script`, name `foo`
yields `foo.js` as the filename submitted to the store; the store then
saves it under the uniquified name `foo_<hash8>.js`, not under `foo.js`
itself, while the handler's reply reports `- Name: foo.js`. -/
theorem create_grammar_and_extension :
    (∀ ty nm tx,
      ty ∈ [tokFile, tokDocument, tokScript, tokJson, tokHtml, tokCss, tokPython,
        tokTypescript, tokJavascript] →
      nm ≠ [] → (∀ ch ∈ nm, isFileClass ch = true) →
      lowerList nm ≠ tokCalled → lowerList nm ≠ tokNamed →
      tx ≠ [] → (∀ ch ∈ tx, isDotChar ch = true) →
      (∀ ch, tx.getLast? = some ch → isJsWs ch = false) →
      detectCommand (tokCreate ++ ' ' :: (ty ++ ' ' :: (nm ++ ' ' :: (tokWith ++ ' ' ::
          (tokContent ++ ':' :: ' ' :: tx))))) =
        some ⟨tokCreate, [(kType, ty), (kName, nm), (kContent, ' ' :: tx)]⟩) ∧
    (∀ ty nm, nm.contains '.' = false →
      createFilename ty nm = nm ++ (extensionMap.lookup (lowerList ty)).getD ((".txt").toList)) ∧
    createFilename (("script").toList) (("foo").toList) = ("foo.js").toList ∧
    (∀ env store c,
      (saveFile env store (("foo.js").toList) c).1.success = true →
      (handleSpecializedCommand env store (("script-launcher").toList)
          ⟨tokCreate, [(kType, ("script").toList), (kName, ("foo").toList), (kContent, c)]⟩).2 =
        setParam store (generateUniqueFilename env (sanitizeFilename (("foo.js").toList)) c) c ∧
      hasSub (("- Name: foo.js").toList)
        (((handleSpecializedCommand env store (("script-launcher").toList)
            ⟨tokCreate, [(kType, ("script").toList), (kName, ("foo").toList),
              (kContent, c)]⟩).1).getD []) = true) := by
  refine ⟨?_, ?_, by decide, ?_⟩
  · intro ty nm tx hty hnm hcls hc1 hc2 htxne htx hlastws
    have hsplit : (tokCreate ++ ' ' :: (ty ++ ' ' :: (nm ++ ' ' :: (tokWith ++ ' ' ::
        (tokContent ++ ':' :: ' ' :: tx))))) =
        (tokCreate ++ ' ' :: (ty ++ ' ' :: (nm ++ ' ' :: (tokWith ++ ' ' ::
          (tokContent ++ [':', ' ']))))) ++ tx := by
      simp
    have htrim : jsTrim (tokCreate ++ ' ' :: (ty ++ ' ' :: (nm ++ ' ' :: (tokWith ++ ' ' ::
        (tokContent ++ ':' :: ' ' :: tx))))) =
        tokCreate ++ ' ' :: (ty ++ ' ' :: (nm ++ ' ' :: (tokWith ++ ' ' ::
          (tokContent ++ ':' :: ' ' :: tx)))) := by
      refine jsTrim_eq_self _ rfl ?_
      intro y hy
      rw [hsplit, getLast_append_ne _ _ htxne] at hy
      exact hlastws y hy
    exact detectCommand_create _ _ htrim (isHelpLiteral_create _)
      (ruleCreate_grammar ty nm tx hty hnm hcls hc1 hc2 htx)
  · intro ty nm hdot
    unfold createFilename
    rw [if_neg (by rw [hdot]; exact Bool.false_ne_true)]
  · intro env store c hsucc
    have hred : handleSpecializedCommand env store (("script-launcher").toList)
        ⟨tokCreate, [(kType, ("script").toList), (kName, ("foo").toList), (kContent, c)]⟩ =
        (some (createMessage env store (("script").toList) (("foo").toList) c).1,
         (createMessage env store (("script").toList) (("foo").toList) c).2) := rfl
    have hmsg : createMessage env store (("script").toList) (("foo").toList) c =
        (capitalize (("script").toList) ++ (" created successfully:\n- Name: ").toList ++
          ("foo.js").toList ++ ("\n- Path: ").toList ++
          relativePathOf env ((saveFile env store (("foo.js").toList) c).1.path.getD []) ++
          ("\n- Size: ").toList ++ natStr (utf8Len c) ++
          (" bytes\n\nThe file has been saved to your user-files directory. You can access it at ").toList ++
          relativePathOf env ((saveFile env store (("foo.js").toList) c).1.path.getD []) ++
          (".").toList,
         (saveFile env store (("foo.js").toList) c).2) := by
      unfold createMessage
      dsimp only
      rw [show createFilename (("script").toList) (("foo").toList) = ("foo.js").toList from by decide]
      rw [if_pos hsucc]
    rw [hred, hmsg]
    constructor
    · show (saveFile env store (("foo.js").toList) c).2 = _
      exact saveFile_success_store env store (("foo.js").toList) c hsucc
    · dsimp only
      simp only [Option.getD_some, List.append_assoc]
      rw [append_regroup (capitalize (("script").toList))
        ((" created successfully:\n- Name: ").toList) (("foo.js").toList)
        (("Script created successfully:\n").toList) (("- Name: foo.js").toList) _ (by decide)]
      exact hasSub_of_parts _ _ _

set_option maxRecDepth 8000 in
/-- C3 counterexample: for `create script foo with content: hi` the extractor
produces the claimed captures (content capture `" hi"`), the handler submits
`foo.js` to the store, but the store saves under the uniquified name
`foo_<hash8>.js`: the stored name is not `foo.js`, and a read of `foo.js`
misses the file just written. -/
theorem create_stored_name_uniquified :
    detectCommand (("create script foo with content: hi").toList) =
      some ⟨tokCreate, [(kType, ("script").toList), (kName, ("foo").toList),
        (kContent, (" hi").toList)]⟩ ∧
    (handleSpecializedCommand fsEnvStub [] (("script-launcher").toList)
        ⟨tokCreate, [(kType, ("script").toList), (kName, ("foo").toList),
          (kContent, (" hi").toList)]⟩).2 =
      [((("foo_aaaaaaaa.js").toList), (" hi").toList)] ∧
    (("foo_aaaaaaaa.js").toList ≠ ("foo.js").toList) ∧
    (readFile fsEnvStub [((("foo_aaaaaaaa.js").toList), (" hi").toList)]
      (("foo.js").toList)).success = false := by
  refine ⟨by decide, by decide, by decide, by decide⟩

/-- Closed instance of `create_grammar_and_extension`: `create script foo
with content: hi` in token form, the html table row, and the
script-launcher create handler on name `foo` with content `hi`. -/
theorem create_grammar_and_extension_witness :
    detectCommand (tokCreate ++ ' ' :: (tokScript ++ ' ' :: ((("foo").toList) ++ ' ' ::
        (tokWith ++ ' ' :: (tokContent ++ ':' :: ' ' :: (("hi").toList)))))) =
      some ⟨tokCreate, [(kType, tokScript), (kName, ("foo").toList),
        (kContent, (" hi").toList)]⟩ ∧
    createFilename (("html").toList) (("page").toList) = ("page.html").toList ∧
    (handleSpecializedCommand fsEnvStub [] (("script-launcher").toList)
        ⟨tokCreate, [(kType, ("script").toList), (kName, ("foo").toList),
          (kContent, ("hi").toList)]⟩).2 =
      setParam [] (generateUniqueFilename fsEnvStub (sanitizeFilename (("foo.js").toList))
        (("hi").toList)) (("hi").toList) ∧
    hasSub (("- Name: foo.js").toList)
      (((handleSpecializedCommand fsEnvStub [] (("script-launcher").toList)
          ⟨tokCreate, [(kType, ("script").toList), (kName, ("foo").toList),
            (kContent, ("hi").toList)]⟩).1).getD []) = true :=
  ⟨create_grammar_and_extension.1 tokScript (("foo").toList) (("hi").toList) (by simp)
      (by decide) (by decide) (by decide) (by decide) (by decide) (by decide)
      (by intro ch h; cases Option.some.inj h; decide),
   by
     have h := create_grammar_and_extension.2.1 (("html").toList) (("page").toList) (by decide)
     rw [h]
     decide,
   (create_grammar_and_extension.2.2.2 fsEnvStub [] (("hi").toList) (by decide)).1,
   (create_grammar_and_extension.2.2.2 fsEnvStub [] (("hi").toList) (by decide)).2⟩
